import Mathlib

/-!
Verification of the pipeline orchestration substrate of the agent_ai
repository against its natural-language specification.

The Python modules under src/agntics_ai are embedded shallowly:

* dictionaries become association lists over String keys (dictGet and
  dictSet model d.get and d[k] = v),
* the globally shared OutputHandler.output_data document becomes the
  OutputData type,
* each method of OutputHandler, TimelineTracker, ControlAgent,
  SessionManager, ConnectionManager and the llm retry loop becomes a
  pure function on an explicit state,
* fallible effects (NATS publish, file writes) are threaded as explicit
  success or error inputs, and wall-clock times are explicit Int
  parameters.
-/

/-- Lookup in a Python dict modelled as an association list:
`d.get(k)`. Returns the value of the first binding of `k`. -/
def dictGet {κ α : Type} [DecidableEq κ] (l : List (κ × α)) (k : κ) : Option α :=
  match l with
  | [] => none
  | p :: rest => if p.1 = k then some p.2 else dictGet rest k

/-- Python dict assignment `d[k] = v`: replaces the binding of `k` when
present, otherwise appends it (Python dicts keep insertion order). -/
def dictSet {κ α : Type} [DecidableEq κ] (l : List (κ × α)) (k : κ) (v : α) : List (κ × α) :=
  match l with
  | [] => [(k, v)]
  | p :: rest => if p.1 = k then (k, v) :: rest else p :: dictSet rest k v

/-- Python dict deletion `del d[k]` (removing every binding of `k`,
which coincides with `del` on the duplicate-free dicts of the source). -/
def dictDel {κ α : Type} [DecidableEq κ] (l : List (κ × α)) (k : κ) : List (κ × α) :=
  l.filter (fun p => p.1 ≠ k)

/-- One timeline entry, as built by `OutputHandler.add_timeline_entry`:
a dict with keys stage, status and errorMessage. -/
structure TimelineEntry where
  stage : String
  status : String
  errorMessage : String
deriving DecidableEq, Repr

/-- Payload of one output section, per the shapes the handler methods in
output_handler.py construct for the data field of each section. -/
inductive SectionData where
  | overviewData (description : String)
  | toolsData (tools : List (String × String))
  | recommendationData (items : List (String × String))
  | checklistData (items : List (String × String))
  | executiveData (items : List (String × String))
  | attackData (tactics : List (String × String × Rat))
  | timelineData (entries : List TimelineEntry)
deriving DecidableEq, Repr

/-- A section value stored in `output_data`: a dict with an id field
(the session that wrote it) and a data field. -/
structure Section where
  id : String
  data : SectionData
deriving DecidableEq, Repr

/-- A value of the `output_data` dict. Every writer in
output_handler.py stores a single section dict (`sec`); the
`docList` shape (a list of id and data items) is the shape
`TimelineTracker.get_current_timeline` expects to iterate over when it
reads the key "agent.timeline.updated" — no writer ever produces it. -/
inductive DocValue where
  | sec (s : Section)
  | docList (docs : List (String × List TimelineEntry))
deriving DecidableEq, Repr

/-- The in-memory document `OutputHandler.output_data`. -/
abbrev OutputData := List (String × DocValue)

/-- OutputHandler.update_overview: replaces the single
"agentAI.overview.updated" section with the new session id and
description (the fire-and-forget GraphQL notification has no effect on
the document). -/
def OutputHandler.update_overview (od : OutputData) (session_id description : String) : OutputData :=
  dictSet od "agentAI.overview.updated" (.sec ⟨session_id, .overviewData description⟩)

/-- OutputHandler.update_tools_status. -/
def OutputHandler.update_tools_status (od : OutputData) (session_id : String)
    (tools : List (String × String)) : OutputData :=
  dictSet od "agentAI.tools.updated" (.sec ⟨session_id, .toolsData tools⟩)

/-- OutputHandler.update_recommendation: stores a one-element list
holding the description and content. -/
def OutputHandler.update_recommendation (od : OutputData) (session_id description content : String) : OutputData :=
  dictSet od "agentAI.recommendation.updated"
    (.sec ⟨session_id, .recommendationData [(description, content)]⟩)

/-- OutputHandler.update_checklist. -/
def OutputHandler.update_checklist (od : OutputData) (session_id title content : String) : OutputData :=
  dictSet od "agentAI.checklist.updated"
    (.sec ⟨session_id, .checklistData [(title, content)]⟩)

/-- OutputHandler.update_executive_summary. -/
def OutputHandler.update_executive_summary (od : OutputData) (session_id title content : String) : OutputData :=
  dictSet od "agentAI.executive.updated"
    (.sec ⟨session_id, .executiveData [(title, content)]⟩)

/-- OutputHandler.update_attack_mapping: tactics are (tacticID,
tacticName, confidence) triples. -/
def OutputHandler.update_attack_mapping (od : OutputData) (session_id : String)
    (tactics : List (String × String × Rat)) : OutputData :=
  dictSet od "agentAI.attack.updated" (.sec ⟨session_id, .attackData tactics⟩)

/-- OutputHandler.add_timeline_entry: if "agentAI.timeline.updated" is
absent it is created with the caller session id and an empty data list;
then the new entry is appended to the data list of whatever section is
stored there (the stored id is NOT updated). The default match arm is
unreachable: only this function and update_timeline write the key, both
with timelineData. -/
def OutputHandler.add_timeline_entry (od : OutputData) (session_id stage status error_message : String) : OutputData :=
  let new_entry : TimelineEntry := ⟨stage, status, error_message⟩
  let od1 : OutputData :=
    match dictGet od "agentAI.timeline.updated" with
    | none => dictSet od "agentAI.timeline.updated" (.sec ⟨session_id, .timelineData []⟩)
    | some _ => od
  match dictGet od1 "agentAI.timeline.updated" with
  | some (DocValue.sec ⟨i, SectionData.timelineData entries⟩) =>
      dictSet od1 "agentAI.timeline.updated" (.sec ⟨i, .timelineData (entries ++ [new_entry])⟩)
  | _ => od1

/-- OutputHandler.get_output_data returns a copy of the document; in the
pure model a copy is the document itself. -/
def OutputHandler.get_output_data (od : OutputData) : OutputData := od

/-- The id a stored value carries: a section dict exposes its id field,
the docList shape is not a dict so `value.get("id")` does not apply
(clear_session_data skips non-dict values via its isinstance check). -/
def DocValue.sessionId : DocValue → Option String
  | .sec s => some s.id
  | .docList _ => none

/-- OutputHandler.clear_session_data: removes every key whose value is a
dict with an id equal to the session being cleared. -/
def OutputHandler.clear_session_data (od : OutputData) (session_id : String) : OutputData :=
  od.filter (fun kv => kv.2.sessionId ≠ some session_id)

/-- TimelineStatus enum of timeline_tracker.py. -/
inductive TimelineStatus where
  | SUCCESS | ERROR | IN_PROGRESS | PENDING
deriving DecidableEq, Repr

/-- The value of each TimelineStatus member. -/
def TimelineStatus.value : TimelineStatus → String
  | .SUCCESS => "success"
  | .ERROR => "error"
  | .IN_PROGRESS => "in_progress"
  | .PENDING => "pending"

/-- TimelineStage enum exactly as declared in timeline_tracker.py: six
members. (control_agent.py also refers to members TYPE_AGENT,
ANALYZE_ROOT_CAUSE, TRIAGE_STATUS, ACTION_TAKEN, TOOL_STATUS and
RECOMMENDATION, which this enum does not declare.) -/
inductive TimelineStage where
  | RECEIVED_ALERT | INPUT_AGENT | ANALYSIS_AGENT
  | RECOMMENDATION_AGENT | OUTPUT_GENERATED | PROCESS_COMPLETE
deriving DecidableEq, Repr

/-- The value of each TimelineStage member. -/
def TimelineStage.value : TimelineStage → String
  | .RECEIVED_ALERT => "Received Alert"
  | .INPUT_AGENT => "Input Agent"
  | .ANALYSIS_AGENT => "Analysis Agent"
  | .RECOMMENDATION_AGENT => "Recommendation Agent"
  | .OUTPUT_GENERATED => "Output Generated"
  | .PROCESS_COMPLETE => "Process Complete"

/-- Python attribute lookup `TimelineStage.<NAME>`: `some` for the six
declared members, `none` (an AttributeError in the source) for any other
name. control_agent.py performs lookups that fall in the `none` case. -/
def timelineStageMember : String → Option TimelineStage
  | "RECEIVED_ALERT" => some .RECEIVED_ALERT
  | "INPUT_AGENT" => some .INPUT_AGENT
  | "ANALYSIS_AGENT" => some .ANALYSIS_AGENT
  | "RECOMMENDATION_AGENT" => some .RECOMMENDATION_AGENT
  | "OUTPUT_GENERATED" => some .OUTPUT_GENERATED
  | "PROCESS_COMPLETE" => some .PROCESS_COMPLETE
  | _ => none

/-- TimelineTracker.add_entry: writes one entry through
OutputHandler.add_timeline_entry (and saves to file; the file write
does not alter the in-memory document, and any exception is caught
inside add_entry). -/
def TimelineTracker.add_entry (od : OutputData) (session_id : String)
    (stage : TimelineStage) (status : TimelineStatus) (error_message : String := "") : OutputData :=
  OutputHandler.add_timeline_entry od session_id stage.value status.value error_message

/-- TimelineTracker.mark_stage_in_progress. -/
def TimelineTracker.mark_stage_in_progress (od : OutputData) (session_id : String)
    (stage : TimelineStage) : OutputData :=
  TimelineTracker.add_entry od session_id stage .IN_PROGRESS

/-- TimelineTracker.mark_stage_success. -/
def TimelineTracker.mark_stage_success (od : OutputData) (session_id : String)
    (stage : TimelineStage) : OutputData :=
  TimelineTracker.add_entry od session_id stage .SUCCESS

/-- TimelineTracker.mark_stage_error. -/
def TimelineTracker.mark_stage_error (od : OutputData) (session_id : String)
    (stage : TimelineStage) (error_message : String) : OutputData :=
  TimelineTracker.add_entry od session_id stage .ERROR error_message

/-- TimelineTracker.complete_processing: appends the terminal
"Process Complete" entry with success or error status. -/
def TimelineTracker.complete_processing (od : OutputData) (session_id : String)
    (success : Bool) (final_message : String) : OutputData :=
  if success then TimelineTracker.add_entry od session_id .PROCESS_COMPLETE .SUCCESS final_message
  else TimelineTracker.add_entry od session_id .PROCESS_COMPLETE .ERROR final_message

/-- TimelineTracker.get_current_timeline: reads the key
"agent.timeline.updated" (not the "agentAI.timeline.updated" key the
writers use), iterates the items it expects there and returns the data
of the first item whose id matches the session; absent key means the
`.get` default, an empty iteration, hence an empty result. The `sec`
arm mirrors that a single dict stored there would yield no matching
item either (iterating a dict yields its string keys). -/
def TimelineTracker.get_current_timeline (od : OutputData) (session_id : String) : List TimelineEntry :=
  match dictGet od "agent.timeline.updated" with
  | some (.docList items) =>
      match items.find? (fun it => it.1 == session_id) with
      | some it => it.2
      | none => []
  | _ => []

/-- TimelineTracker.is_stage_completed. -/
def TimelineTracker.is_stage_completed (od : OutputData) (session_id : String)
    (stage : TimelineStage) : Bool :=
  (TimelineTracker.get_current_timeline od session_id).any
    (fun e => e.stage == stage.value && e.status == TimelineStatus.SUCCESS.value)

/-- TimelineTracker.has_errors. -/
def TimelineTracker.has_errors (od : OutputData) (session_id : String) : Bool :=
  (TimelineTracker.get_current_timeline od session_id).any
    (fun e => e.status == TimelineStatus.ERROR.value)

/-- TimelineTracker.get_error_stages. -/
def TimelineTracker.get_error_stages (od : OutputData) (session_id : String) : List String :=
  ((TimelineTracker.get_current_timeline od session_id).filter
    (fun e => e.status == TimelineStatus.ERROR.value)).map (fun e => e.stage)

/-- The entries the writers hold under "agentAI.timeline.updated". -/
def timelineEntriesOf (od : OutputData) : List TimelineEntry :=
  match dictGet od "agentAI.timeline.updated" with
  | some (.sec ⟨_, .timelineData entries⟩) => entries
  | _ => []

/-- The key "agentAI.timeline.updated" is absent or holds a timeline
section, as in every state the source constructs. -/
def TimelineWF (od : OutputData) : Prop :=
  dictGet od "agentAI.timeline.updated" = none ∨
  ∃ i entries, dictGet od "agentAI.timeline.updated" = some (.sec ⟨i, .timelineData entries⟩)

/-- dictGet after dictSet at the same key. -/
theorem dictGet_dictSet_self {κ α : Type} [DecidableEq κ] (l : List (κ × α)) (k : κ) (v : α) :
    dictGet (dictSet l k v) k = some v := by
  induction l with
  | nil => simp [dictGet, dictSet]
  | cons p rest ih =>
      by_cases h : p.1 = k
      · simp [dictGet, dictSet, h]
      · simp [dictGet, dictSet, h, ih]

/-- dictGet after dictSet at a different key. -/
theorem dictGet_dictSet_ne {κ α : Type} [DecidableEq κ] (l : List (κ × α)) (k k2 : κ) (v : α)
    (h : k ≠ k2) : dictGet (dictSet l k v) k2 = dictGet l k2 := by
  induction l with
  | nil => simp [dictGet, dictSet, h]
  | cons p rest ih =>
      by_cases hp : p.1 = k
      · simp [dictGet, dictSet, hp, h, hp ▸ h]
      · by_cases hp2 : p.1 = k2
        · simp [dictGet, dictSet, hp, hp2, Ne.symm h]
        · simp [dictGet, dictSet, hp, hp2, ih]

/-- Appending one timeline entry through the output handler extends the
stored entry list by exactly that entry, on every well-formed document. -/
theorem add_timeline_entry_entries (od : OutputData) (sid stage status msg : String)
    (h : TimelineWF od) :
    timelineEntriesOf (OutputHandler.add_timeline_entry od sid stage status msg) =
      timelineEntriesOf od ++ [⟨stage, status, msg⟩] := by
  rcases h with h | ⟨i, entries, h⟩
  · simp [OutputHandler.add_timeline_entry, timelineEntriesOf, h, dictGet_dictSet_self]
  · simp [OutputHandler.add_timeline_entry, timelineEntriesOf, h, dictGet_dictSet_self]

/-- add_timeline_entry preserves well-formedness of the timeline key. -/
theorem add_timeline_entry_wf (od : OutputData) (sid stage status msg : String)
    (h : TimelineWF od) :
    TimelineWF (OutputHandler.add_timeline_entry od sid stage status msg) := by
  rcases h with h | ⟨i, entries, h⟩
  · exact Or.inr ⟨sid, [⟨stage, status, msg⟩],
      by simp [OutputHandler.add_timeline_entry, h, dictGet_dictSet_self]⟩
  · exact Or.inr ⟨i, entries ++ [⟨stage, status, msg⟩],
      by simp [OutputHandler.add_timeline_entry, h, dictGet_dictSet_self]⟩

/-- One call of mark_stage_success or mark_stage_error, as replayed for
the append-only claim. -/
inductive MarkOp where
  | succ (stage : TimelineStage)
  | err (stage : TimelineStage) (message : String)
deriving DecidableEq, Repr

/-- The timeline entry a mark operation writes. -/
def MarkOp.entry : MarkOp → TimelineEntry
  | .succ stage => ⟨stage.value, "success", ""⟩
  | .err stage message => ⟨stage.value, "error", message⟩

/-- Run one mark operation through the tracker. -/
def applyMark (od : OutputData) (session_id : String) : MarkOp → OutputData
  | .succ stage => TimelineTracker.mark_stage_success od session_id stage
  | .err stage message => TimelineTracker.mark_stage_error od session_id stage message

/-- Run a sequence of mark operations through the tracker. -/
def applyMarks (od : OutputData) (session_id : String) (ops : List MarkOp) : OutputData :=
  ops.foldl (fun acc op => applyMark acc session_id op) od

/-- One mark appends exactly its entry. -/
theorem applyMark_entries (od : OutputData) (sid : String) (op : MarkOp)
    (h : TimelineWF od) :
    timelineEntriesOf (applyMark od sid op) = timelineEntriesOf od ++ [op.entry] := by
  cases op with
  | succ stage =>
      exact add_timeline_entry_entries od sid stage.value "success" "" h
  | err stage message =>
      exact add_timeline_entry_entries od sid stage.value "error" message h

/-- One mark preserves well-formedness. -/
theorem applyMark_wf (od : OutputData) (sid : String) (op : MarkOp)
    (h : TimelineWF od) : TimelineWF (applyMark od sid op) := by
  cases op with
  | succ stage => exact add_timeline_entry_wf od sid stage.value "success" "" h
  | err stage message => exact add_timeline_entry_wf od sid stage.value "error" message h

/-- Folding a list of marks appends exactly their entries, in order. -/
theorem applyMarks_entries (ops : List MarkOp) (od : OutputData) (sid : String)
    (h : TimelineWF od) :
    timelineEntriesOf (applyMarks od sid ops) =
      timelineEntriesOf od ++ ops.map MarkOp.entry := by
  induction ops generalizing od with
  | nil => simp [applyMarks]
  | cons op rest ih =>
      have hstep := applyMark_entries od sid op h
      have hwf := applyMark_wf od sid op h
      calc timelineEntriesOf (applyMarks od sid (op :: rest))
          = timelineEntriesOf (applyMarks (applyMark od sid op) sid rest) := rfl
        _ = timelineEntriesOf (applyMark od sid op) ++ rest.map MarkOp.entry := ih _ hwf
        _ = timelineEntriesOf od ++ (op :: rest).map MarkOp.entry := by
              rw [hstep]; simp

/-- C6: repeated calls of mark_stage_success and mark_stage_error (which
write through OutputHandler.add_timeline_entry) never remove or reorder
the previously recorded timeline entries — the resulting entry list is
exactly the old list with the new entries appended in call order — and
the entry count grows by one per call. -/
theorem claim_C6_append_only_timeline (od : OutputData) (sid : String) (ops : List MarkOp)
    (h : TimelineWF od) :
    timelineEntriesOf (applyMarks od sid ops) =
        timelineEntriesOf od ++ ops.map MarkOp.entry ∧
    (timelineEntriesOf (applyMarks od sid ops)).length =
        (timelineEntriesOf od).length + ops.length := by
  refine ⟨applyMarks_entries ops od sid h, ?_⟩
  rw [applyMarks_entries ops od sid h]
  simp

/-- Witness for C6 at a concrete document and call sequence. -/
theorem claim_C6_append_only_timeline_witness :
    timelineEntriesOf (applyMarks [] "S1"
        [MarkOp.succ .ANALYSIS_AGENT, MarkOp.err .RECOMMENDATION_AGENT "boom"]) =
      timelineEntriesOf ([] : OutputData) ++
        ([MarkOp.succ .ANALYSIS_AGENT, MarkOp.err .RECOMMENDATION_AGENT "boom"].map MarkOp.entry) ∧
    (timelineEntriesOf (applyMarks [] "S1"
        [MarkOp.succ .ANALYSIS_AGENT, MarkOp.err .RECOMMENDATION_AGENT "boom"])).length =
      (timelineEntriesOf ([] : OutputData)).length + 2 :=
  claim_C6_append_only_timeline [] "S1"
    [MarkOp.succ .ANALYSIS_AGENT, MarkOp.err .RECOMMENDATION_AGENT "boom"] (Or.inl rfl)

/-- C5 (code bug): the tracker query operations read the key
"agent.timeline.updated" while every write lands under the key
"agentAI.timeline.updated", so after mark_stage_error records an error
entry, has_errors still returns false and get_error_stages is empty,
and after a success entry is recorded is_stage_completed still returns
false — even though the entries are present in the document. -/
theorem claim_C5_query_key_mismatch :
    timelineEntriesOf (TimelineTracker.mark_stage_error [] "S1" .ANALYSIS_AGENT "boom") =
      [⟨"Analysis Agent", "error", "boom"⟩] ∧
    TimelineTracker.has_errors
      (TimelineTracker.mark_stage_error [] "S1" .ANALYSIS_AGENT "boom") "S1" = false ∧
    TimelineTracker.get_error_stages
      (TimelineTracker.mark_stage_error [] "S1" .ANALYSIS_AGENT "boom") "S1" = [] ∧
    TimelineTracker.is_stage_completed
      (TimelineTracker.mark_stage_success
        (TimelineTracker.mark_stage_error [] "S1" .ANALYSIS_AGENT "boom")
        "S1" .ANALYSIS_AGENT) "S1" .ANALYSIS_AGENT = false := by
  refine ⟨rfl, rfl, rfl, rfl⟩

/-- C10: the in-memory document keys sections per section kind, not per
session: an overview update for session s2 replaces whatever overview
any other session s1 stored, and add_timeline_entry for s2 appends to
the existing timeline list while that section keeps its original id s1. -/
theorem claim_C10_sections_global (od : OutputData) (s1 s2 d1 d2 : String)
    (stage status msg : String) (entries : List TimelineEntry)
    (h : dictGet od "agentAI.timeline.updated" = some (.sec ⟨s1, .timelineData entries⟩)) :
    dictGet (OutputHandler.update_overview (OutputHandler.update_overview od s1 d1) s2 d2)
        "agentAI.overview.updated" = some (.sec ⟨s2, .overviewData d2⟩) ∧
    dictGet (OutputHandler.add_timeline_entry od s2 stage status msg)
        "agentAI.timeline.updated" =
      some (.sec ⟨s1, .timelineData (entries ++ [⟨stage, status, msg⟩])⟩) := by
  constructor
  · simp [OutputHandler.update_overview, dictGet_dictSet_self]
  · simp [OutputHandler.add_timeline_entry, h, dictGet_dictSet_self]

/-- Witness for C10 at a concrete document holding a timeline created
for session s1. -/
theorem claim_C10_sections_global_witness :
    dictGet (OutputHandler.update_overview (OutputHandler.update_overview
        [("agentAI.timeline.updated",
          DocValue.sec ⟨"s1", .timelineData [⟨"Received Alert", "success", ""⟩]⟩)]
        "s1" "first") "s2" "second")
      "agentAI.overview.updated" = some (.sec ⟨"s2", .overviewData "second"⟩) ∧
    dictGet (OutputHandler.add_timeline_entry
        [("agentAI.timeline.updated",
          DocValue.sec ⟨"s1", .timelineData [⟨"Received Alert", "success", ""⟩]⟩)]
        "s2" "Analysis Agent" "success" "") "agentAI.timeline.updated" =
      some (.sec ⟨"s1", .timelineData
        [⟨"Received Alert", "success", ""⟩, ⟨"Analysis Agent", "success", ""⟩]⟩) :=
  claim_C10_sections_global
    [("agentAI.timeline.updated",
      DocValue.sec ⟨"s1", .timelineData [⟨"Received Alert", "success", ""⟩]⟩)]
    "s1" "s2" "first" "second" "Analysis Agent" "success" ""
    [⟨"Received Alert", "success", ""⟩] (by simp [dictGet])

/-- WorkflowStage enum of control_agent.py (values 1 to 7). -/
inductive WorkflowStage where
  | RECEIVED_ALERT | TYPE_AGENT | ANALYZE_ROOT_CAUSE | TRIAGE_STATUS
  | ACTION_TAKEN | TOOL_STATUS | RECOMMENDATION
deriving DecidableEq, Repr

/-- Numeric value of each WorkflowStage member. -/
def WorkflowStage.value : WorkflowStage → Nat
  | .RECEIVED_ALERT => 1
  | .TYPE_AGENT => 2
  | .ANALYZE_ROOT_CAUSE => 3
  | .TRIAGE_STATUS => 4
  | .ACTION_TAKEN => 5
  | .TOOL_STATUS => 6
  | .RECOMMENDATION => 7

/-- Member name of each WorkflowStage member (Python stage.name). -/
def WorkflowStage.memberName : WorkflowStage → String
  | .RECEIVED_ALERT => "RECEIVED_ALERT"
  | .TYPE_AGENT => "TYPE_AGENT"
  | .ANALYZE_ROOT_CAUSE => "ANALYZE_ROOT_CAUSE"
  | .TRIAGE_STATUS => "TRIAGE_STATUS"
  | .ACTION_TAKEN => "ACTION_TAKEN"
  | .TOOL_STATUS => "TOOL_STATUS"
  | .RECOMMENDATION => "RECOMMENDATION"

/-- An alert or stage-data payload: a flat JSON object of string fields
(the fields the control agent reads are all strings). -/
abbrev AlertData := List (String × String)

/-- The payload _build_timeline_payload wraps under
"agent.timeline.updated" for NATS. -/
structure TimelinePayload where
  alert_id : String
  data : List TimelineEntry
deriving DecidableEq, Repr

/-- The stage_names table of ControlAgent._build_timeline_payload. -/
def ControlAgent.stage_names : List (Nat × String) :=
  [(1, "Received Alert"), (2, "Type Agent"), (3, "Analyze Root Cause"),
   (4, "Triage Status"), (5, "Action Taken"), (6, "Tool Status"),
   (7, "Recommendation")]

/-- ControlAgent._build_timeline_payload: one entry per stage number 1..case,
the last one an error entry when an error message is given. -/
def ControlAgent.build_timeline_payload (case : Nat) (session_id : String)
    (error : String) : TimelinePayload :=
  if case = 0 then ⟨session_id, []⟩
  else
    ⟨session_id,
      (List.range' 1 case).filterMap (fun i =>
        match dictGet ControlAgent.stage_names i with
        | none => none
        | some stage =>
            if i = case ∧ error ≠ "" then some ⟨stage, "error", error⟩
            else some ⟨stage, "success", ""⟩)⟩

/-- The fields of the JSON object the _analyze_alert step yields (after
its internal validation and fallbacks): the parts the agents read. -/
structure MitreAnalysis where
  technique_name : Option String
  tactic : Option String
  confidence_score : Option Rat
deriving DecidableEq, Repr

/-- Combined process state shared by the control agent and the worker
agents: the timeline-tracker registry (TimelineManager._trackers keys),
the global output document, the JSON persistence stores (alerts,
analyses, reports, sessions), the control agent log files (modelled as
the list of (filename, session) appends), the published NATS timeline
messages and the logical subjects of the other publishes, the uuid
generator (uuid4 modelled as a fresh counter-derived id), whether a
NATS handler is attached, and the tools data the tools monitor
currently reports. -/
structure SystemState where
  trackers : List String
  output : OutputData
  alerts : List (String × AlertData)
  analyses : List (String × MitreAnalysis)
  reports : List (String × String)
  sessionsStore : List (String × AlertData)
  logs : List (String × String)
  published : List (String × TimelinePayload)
  publishedSubjects : List String
  uuidCounter : Nat
  natsConnected : Bool
  toolsData : List (String × String)
deriving Repr

/-- The initial process state (fresh handlers, empty document). -/
def SystemState.init : SystemState :=
  ⟨[], [], [], [], [], [], [], [], [], 0, false, []⟩

/-- get_timeline_tracker: returns the cached tracker or creates one; the
TimelineTracker constructor records a first "Received Alert" success
entry through the output handler. -/
def get_timeline_tracker (st : SystemState) (session_id : String) : SystemState :=
  if session_id ∈ st.trackers then st
  else
    { st with
      trackers := st.trackers ++ [session_id],
      output := TimelineTracker.add_entry st.output session_id .RECEIVED_ALERT .SUCCESS }

/-- The message of the AttributeError raised by a failed member lookup
on the TimelineStage enum. -/
def attributeErrorMsg (memberName : String) : String :=
  "type object TimelineStage has no attribute " ++ memberName

/-- ControlAgent._publish_timeline_update: skipped without a NATS
handler; publish failures are caught and ignored. -/
def ControlAgent.publish_timeline_update (st : SystemState) (session_id : String)
    (stage : WorkflowStage) (error : String) : SystemState :=
  if st.natsConnected then
    { st with published := st.published ++
        [("agentAI.websoc", ControlAgent.build_timeline_payload stage.value session_id error)] }
  else st

/-- The timeline_stage_map dict literal of ControlAgent._handle_error:
building it performs seven member lookups on TimelineStage in source
order; the lookups for TYPE_AGENT, ANALYZE_ROOT_CAUSE, TRIAGE_STATUS,
ACTION_TAKEN, TOOL_STATUS and RECOMMENDATION all fail, so constructing
the dict raises AttributeError (the none result here). -/
def ControlAgent.timeline_stage_map : Option (WorkflowStage → TimelineStage) :=
  match timelineStageMember "RECEIVED_ALERT", timelineStageMember "TYPE_AGENT",
        timelineStageMember "ANALYZE_ROOT_CAUSE", timelineStageMember "TRIAGE_STATUS",
        timelineStageMember "ACTION_TAKEN", timelineStageMember "TOOL_STATUS",
        timelineStageMember "RECOMMENDATION" with
  | some ra, some ta, some arc, some ts, some act, some tos, some rc =>
      some (fun w =>
        match w with
        | .RECEIVED_ALERT => ra
        | .TYPE_AGENT => ta
        | .ANALYZE_ROOT_CAUSE => arc
        | .TRIAGE_STATUS => ts
        | .ACTION_TAKEN => act
        | .TOOL_STATUS => tos
        | .RECOMMENDATION => rc)
  | _, _, _, _, _, _, _ => none

/-- ControlAgent._handle_error: everything inside it is wrapped in a
try that only logs, so when building timeline_stage_map raises, the
state beyond the tracker creation is left untouched; on the (dead)
successful branch it records the error and terminal entries, updates
the executive summary and publishes the error timeline. -/
def ControlAgent.handle_error (st : SystemState) (session_id : String)
    (stage : WorkflowStage) (error_msg : String) : SystemState :=
  let st1 := get_timeline_tracker st session_id
  match ControlAgent.timeline_stage_map with
  | none => st1
  | some m =>
      let tstage := m stage
      let od := TimelineTracker.mark_stage_error st1.output session_id tstage error_msg
      let od := TimelineTracker.complete_processing od session_id false
          ("Processing failed at " ++ stage.memberName ++ ": " ++ error_msg)
      let od := OutputHandler.update_executive_summary od session_id
          ("Processing Error - " ++ stage.memberName)
          ("An error occurred during " ++ stage.memberName ++ ": " ++ error_msg)
      ControlAgent.publish_timeline_update { st1 with output := od } session_id stage error_msg

/-- ControlAgent.start_flow: generates a session id when none (or an
empty one) is given, creates the tracker, marks "Received Alert"
success a second time, saves the alert, appends the start log, updates
the overview and tools sections and publishes a progress event. -/
def ControlAgent.start_flow (st₀ : SystemState) (alert_data : AlertData)
    (session_id : Option String) : SystemState × String :=
  let fresh := "session-" ++ toString st₀.uuidCounter
  let generate := match session_id with
    | none => true
    | some s => s = ""
  let sid := if generate then fresh else session_id.getD fresh
  let st := if generate then { st₀ with uuidCounter := st₀.uuidCounter + 1 } else st₀
  let st := get_timeline_tracker st sid
  match timelineStageMember "RECEIVED_ALERT" with
  | none =>
      (st, "error: " ++ attributeErrorMsg "RECEIVED_ALERT")
  | some stg =>
      let st := { st with output := TimelineTracker.mark_stage_success st.output sid stg }
      let alert_id := (dictGet alert_data "alert_id").getD ("alert_" ++ sid)
      let st := { st with alerts := dictSet st.alerts alert_id alert_data }
      let st := { st with logs := st.logs ++ [("start_log.json", sid)] }
      let st := { st with output :=
        OutputHandler.update_overview st.output sid "Alert received and processing started" }
      let st := { st with output :=
        OutputHandler.update_tools_status st.output sid st.toolsData }
      let st := ControlAgent.publish_timeline_update st sid .RECEIVED_ALERT ""
      (st, "success")

/-- ControlAgent.finished_type: the lookup TimelineStage.TYPE_AGENT
raises AttributeError (no such member), which the except clause routes
to _handle_error; the nominal branch (dead, since the member is
missing) marks the stage, logs, updates the overview when a
technique_name is present and publishes stage 5. -/
def ControlAgent.finished_type (st₀ : SystemState) (data : AlertData)
    (session_id : String) : SystemState × String :=
  let st := get_timeline_tracker st₀ session_id
  match timelineStageMember "TYPE_AGENT" with
  | none =>
      let msg := attributeErrorMsg "TYPE_AGENT"
      (ControlAgent.handle_error st session_id .TYPE_AGENT msg, "error: " ++ msg)
  | some stg =>
      let st := { st with output := TimelineTracker.mark_stage_success st.output session_id stg }
      let st := { st with logs := st.logs ++ [("type_log.json", session_id)] }
      let st := match dictGet data "technique_name" with
        | some tn =>
            let od := OutputHandler.update_overview st.output session_id
                ("Analysis completed: " ++ tn ++ " technique identified")
            { st with output := od }
        | none => st
      let st := ControlAgent.publish_timeline_update st session_id .ACTION_TAKEN ""
      (st, "success")

/-- ControlAgent._finalize_output. -/
def ControlAgent.finalize_output (st : SystemState) (session_id : String)
    (data : AlertData) : SystemState :=
  let od := OutputHandler.update_executive_summary st.output session_id
      "Incident Analysis Complete"
      "All processing stages completed successfully. Review recommendations and take appropriate action."
  let od :=
    if (dictGet data "report").isSome || (dictGet data "recommendation").isSome then
      OutputHandler.update_recommendation od session_id
        "Final incident response recommendations"
        ((dictGet data "report").getD ((dictGet data "recommendation").getD "Analysis completed"))
    else od
  { st with output := od }

/-- ControlAgent.finished_flow: an upstream error status goes to
_handle_error; otherwise the lookup TimelineStage.RECOMMENDATION raises
AttributeError (no such member) and the except clause routes to
_handle_error as well; the nominal branch (dead) marks success, appends
the terminal entry, persists session data, finalizes output sections
and publishes completion. -/
def ControlAgent.finished_flow (st₀ : SystemState) (data : AlertData)
    (session_id : String) : SystemState × String :=
  if dictGet data "status" = some "error" then
    let error_msg := (dictGet data "message").getD "Unknown error from agent"
    (ControlAgent.handle_error st₀ session_id .RECOMMENDATION error_msg,
     "error: " ++ error_msg)
  else
    let st := get_timeline_tracker st₀ session_id
    match timelineStageMember "RECOMMENDATION" with
    | none =>
        let msg := attributeErrorMsg "RECOMMENDATION"
        (ControlAgent.handle_error st session_id .RECOMMENDATION msg, "error: " ++ msg)
    | some stg =>
        let od := TimelineTracker.mark_stage_success st.output session_id stg
        let od := TimelineTracker.complete_processing od session_id true
            "Workflow completed successfully"
        let st := { st with output := od, logs := st.logs ++ [("context_log.json", session_id)] }
        let st := { st with sessionsStore := dictSet st.sessionsStore session_id data }
        let st := ControlAgent.finalize_output st session_id data
        let st := ControlAgent.publish_timeline_update st session_id .RECOMMENDATION ""
        (st, "success")

/-- C1 (code bug): the end-to-end scenario breaks in the code. start
succeeds but records "Received Alert" twice (once in the tracker
constructor, once via mark_stage_success); the following finished_type
call raises AttributeError because the TimelineStage enum has no member
TYPE_AGENT, so no "Type Agent" entry is ever appended and the call
returns an error; finished_flow with a success payload likewise raises
on the missing RECOMMENDATION member, so the recommendation section is
never written. -/
theorem claim_C1_scenario_fails :
    (ControlAgent.start_flow SystemState.init [("alert_id", "A1")] none).2 = "success" ∧
    timelineEntriesOf (ControlAgent.start_flow SystemState.init [("alert_id", "A1")] none).1.output =
      [⟨"Received Alert", "success", ""⟩, ⟨"Received Alert", "success", ""⟩] ∧
    (ControlAgent.finished_type
        (ControlAgent.start_flow SystemState.init [("alert_id", "A1")] none).1
        [("technique_name", "T1055")] "session-0").2 =
      "error: type object TimelineStage has no attribute TYPE_AGENT" ∧
    timelineEntriesOf (ControlAgent.finished_type
        (ControlAgent.start_flow SystemState.init [("alert_id", "A1")] none).1
        [("technique_name", "T1055")] "session-0").1.output =
      [⟨"Received Alert", "success", ""⟩, ⟨"Received Alert", "success", ""⟩] ∧
    (ControlAgent.finished_flow
        (ControlAgent.finished_type
          (ControlAgent.start_flow SystemState.init [("alert_id", "A1")] none).1
          [("technique_name", "T1055")] "session-0").1
        [("status", "success"), ("report", "ok")] "session-0").2 =
      "error: type object TimelineStage has no attribute RECOMMENDATION" ∧
    dictGet (ControlAgent.finished_flow
        (ControlAgent.finished_type
          (ControlAgent.start_flow SystemState.init [("alert_id", "A1")] none).1
          [("technique_name", "T1055")] "session-0").1
        [("status", "success"), ("report", "ok")] "session-0").1.output
      "agentAI.recommendation.updated" = none :=
  ⟨rfl, rfl, rfl, rfl, rfl, rfl⟩

/-- C2 (code bug): flowCompleted with an upstream error payload routes
to _handle_error, whose timeline_stage_map construction raises
AttributeError (missing TimelineStage members); the exception is
swallowed, so no error entry and no terminal entry are written at all —
the timeline ends with "Received Alert"/success instead of an
error/"boom" entry. The call still returns the error string. -/
theorem claim_C2_error_entry_missing :
    (ControlAgent.finished_flow SystemState.init
        [("status", "error"), ("message", "boom")] "S1").2 = "error: boom" ∧
    timelineEntriesOf (ControlAgent.finished_flow SystemState.init
        [("status", "error"), ("message", "boom")] "S1").1.output =
      [⟨"Received Alert", "success", ""⟩] ∧
    ((timelineEntriesOf (ControlAgent.finished_flow SystemState.init
        [("status", "error"), ("message", "boom")] "S1").1.output).all
      (fun e => e.status != "error")) = true :=
  ⟨rfl, rfl, rfl⟩

/-- Outcome of one attempt of the Ollama call in get_llm_completion: a
200 response with its content, a non-200 HTTP status, or one of the
caught exception kinds (connection error, timeout, other). -/
inductive AttemptResult where
  | ok (content : String)
  | httpError (status : Nat)
  | connError (msg : String)
  | timeoutErr (msg : String)
  | otherErr (msg : String)
deriving DecidableEq, Repr

/-- Trace of one run of get_llm_completion: its result, how many
attempts (requests) were made, and the backoff waits slept between
attempts. -/
structure LlmTrace where
  result : Except String String
  attempts : Nat
  waits : List Nat
deriving Repr

/-- The retry loop of get_llm_completion in llm_handler_ollama.py.
`respond` is the endpoint: its reply to attempt number `attempt`
(0-based). fuel counts the remaining loop iterations
(max_retries + 1 - attempt). A 4xx status breaks out of the loop; any
other failure records the exception, sleeps min(2^attempt, 10) when
retries remain, and iterates; exhausting the loop raises the last
recorded error. -/
def llmGo (respond : Nat → AttemptResult) (max_retries : Nat) :
    Nat → Nat → Option String → List Nat → LlmTrace
  | 0, attempt, last, waits =>
      ⟨.error (last.getD "Ollama completion failed after all retries"), attempt, waits⟩
  | fuel + 1, attempt, _last, waits =>
      let backoff := min (2 ^ attempt) 10
      match respond attempt with
      | .ok content => ⟨.ok content, attempt + 1, waits⟩
      | .httpError status =>
          let lastMsg := "Ollama API error: " ++ toString status
          if 400 ≤ status ∧ status < 500 then ⟨.error lastMsg, attempt + 1, waits⟩
          else if attempt < max_retries then
            llmGo respond max_retries fuel (attempt + 1) (some lastMsg) (waits ++ [backoff])
          else llmGo respond max_retries fuel (attempt + 1) (some lastMsg) waits
      | .connError msg =>
          let lastMsg := "Ollama connection error: " ++ msg
          if attempt < max_retries then
            llmGo respond max_retries fuel (attempt + 1) (some lastMsg) (waits ++ [backoff])
          else llmGo respond max_retries fuel (attempt + 1) (some lastMsg) waits
      | .timeoutErr msg =>
          let lastMsg := "Ollama timeout error: " ++ msg
          if attempt < max_retries then
            llmGo respond max_retries fuel (attempt + 1) (some lastMsg) (waits ++ [backoff])
          else llmGo respond max_retries fuel (attempt + 1) (some lastMsg) waits
      | .otherErr msg =>
          let lastMsg := "Ollama completion failed: " ++ msg
          if attempt < max_retries then
            llmGo respond max_retries fuel (attempt + 1) (some lastMsg) (waits ++ [backoff])
          else llmGo respond max_retries fuel (attempt + 1) (some lastMsg) waits

/-- get_llm_completion: runs the loop `for attempt in range(max_retries + 1)`. -/
def get_llm_completion (respond : Nat → AttemptResult) (max_retries : Nat := 3) : LlmTrace :=
  llmGo respond max_retries (max_retries + 1) 0 none []

/-- Every wait the loop ever sleeps is at most 10 seconds. -/
theorem llmGo_waits_le (respond : Nat → AttemptResult) (mr : Nat) (fuel : Nat) :
    ∀ (attempt : Nat) (last : Option String) (waits : List Nat),
      waits.all (fun w => decide (w ≤ 10)) = true →
      ((llmGo respond mr fuel attempt last waits).waits.all (fun w => decide (w ≤ 10))) = true := by
  induction fuel with
  | zero => intro attempt last waits h; simpa [llmGo] using h
  | succ n ih =>
      intro attempt last waits h
      have hback : ((waits ++ [min (2 ^ attempt) 10]).all (fun w => decide (w ≤ 10))) = true := by
        simp only [List.all_append, h, Bool.true_and, List.all_cons, List.all_nil, Bool.and_true]
        simp only [decide_eq_true_eq]
        exact Nat.min_le_right (2 ^ attempt) 10
      cases hres : respond attempt with
      | ok content => simpa [llmGo, hres] using h
      | httpError status =>
          by_cases h45 : 400 ≤ status ∧ status < 500
          · simpa [llmGo, hres, h45] using h
          · by_cases hlt : attempt < mr
            · simpa [llmGo, hres, h45, hlt] using ih (attempt + 1) _ _ hback
            · simpa [llmGo, hres, h45, hlt] using ih (attempt + 1) _ _ h
      | connError msg =>
          by_cases hlt : attempt < mr
          · simpa [llmGo, hres, hlt] using ih (attempt + 1) _ _ hback
          · simpa [llmGo, hres, hlt] using ih (attempt + 1) _ _ h
      | timeoutErr msg =>
          by_cases hlt : attempt < mr
          · simpa [llmGo, hres, hlt] using ih (attempt + 1) _ _ hback
          · simpa [llmGo, hres, hlt] using ih (attempt + 1) _ _ h
      | otherErr msg =>
          by_cases hlt : attempt < mr
          · simpa [llmGo, hres, hlt] using ih (attempt + 1) _ _ hback
          · simpa [llmGo, hres, hlt] using ih (attempt + 1) _ _ h

/-- C4: with maxRetries = 3 against an endpoint that always answers
HTTP 500, get_llm_completion makes exactly 4 attempts, raises a failure
carrying the last underlying error ("Ollama API error: 500"), sleeps
the backoffs 1, 2, 4 (each at most 10), and in general every backoff
wait of any run is capped at 10 seconds. -/
theorem claim_C4_retry_backoff_bound :
    (get_llm_completion (fun _ => .httpError 500) 3).attempts = 4 ∧
    (get_llm_completion (fun _ => .httpError 500) 3).result =
      Except.error "Ollama API error: 500" ∧
    (get_llm_completion (fun _ => .httpError 500) 3).waits = [1, 2, 4] ∧
    (∀ (respond : Nat → AttemptResult) (mr : Nat),
      ((get_llm_completion respond mr).waits.all (fun w => decide (w ≤ 10))) = true) :=
  ⟨rfl, rfl, rfl, fun respond mr => llmGo_waits_le respond mr (mr + 1) 0 none [] rfl⟩

/-- dictGet is none exactly when the key is absent. -/
theorem dictGet_eq_none_iff {κ α : Type} [DecidableEq κ] (l : List (κ × α)) (k : κ) :
    dictGet l k = none ↔ k ∉ l.map Prod.fst := by
  induction l with
  | nil => simp [dictGet]
  | cons p rest ih =>
      by_cases h : p.1 = k
      · simp [dictGet, h]
      · simp [dictGet, h, ih, Ne.symm h]

/-- Setting an absent key appends it to the key list. -/
theorem dictSet_keys_of_absent {κ α : Type} [DecidableEq κ] (l : List (κ × α)) (k : κ) (v : α)
    (h : k ∉ l.map Prod.fst) :
    (dictSet l k v).map Prod.fst = l.map Prod.fst ++ [k] := by
  induction l with
  | nil => simp [dictSet]
  | cons p rest ih =>
      simp only [List.map_cons, List.mem_cons] at h
      push_neg at h
      simp [dictSet, Ne.symm h.1, ih h.2]

/-- State of the singleton ConnectionManager: the connections dict
(each handler identified by its creation index), the next fresh handler
index, and the log of the connect() calls performed, each tagged with
the connection id that triggered it. All of get_connection runs under
the manager's asyncio.Lock, so each call is one atomic step; concurrent
callers are serialized into some sequence of such steps. -/
structure ConnState where
  connections : List (String × Nat)
  nextHandle : Nat
  connectLog : List String
deriving DecidableEq, Repr

/-- The fresh manager. -/
def ConnState.init : ConnState := ⟨[], 0, []⟩

/-- ConnectionManager.get_connection: returns the stored handler when
the id is present; otherwise constructs a handler, connects it (one
connect() call) and stores it. -/
def ConnectionManager.get_connection (st : ConnState) (connection_id : String) :
    ConnState × Nat :=
  match dictGet st.connections connection_id with
  | some h => (st, h)
  | none =>
      (⟨dictSet st.connections connection_id st.nextHandle,
        st.nextHandle + 1,
        st.connectLog ++ [connection_id]⟩, st.nextHandle)

/-- A sequence of get_connection calls, returning the final manager
state and the handler each call yielded. -/
def runConnCalls : ConnState → List String → ConnState × List (String × Nat)
  | st, [] => (st, [])
  | st, k :: ks =>
      let step := ConnectionManager.get_connection st k
      let rest := runConnCalls step.1 ks
      (rest.1, (k, step.2) :: rest.2)

/-- Existing bindings survive a get_connection call unchanged. -/
theorem get_connection_mono (st : ConnState) (k k2 : String) (h : Nat)
    (hb : dictGet st.connections k2 = some h) :
    dictGet (ConnectionManager.get_connection st k).1.connections k2 = some h := by
  unfold ConnectionManager.get_connection
  cases hk : dictGet st.connections k with
  | some v => simpa [hk] using hb
  | none =>
      have hne : k ≠ k2 := by
        intro he; rw [he] at hk; rw [hk] at hb; exact Option.noConfusion hb
      simpa [hk, dictGet_dictSet_ne _ _ _ _ hne] using hb

/-- Existing bindings survive a whole call sequence unchanged. -/
theorem runConnCalls_mono (ks : List String) (st : ConnState) (k2 : String) (h : Nat)
    (hb : dictGet st.connections k2 = some h) :
    dictGet (runConnCalls st ks).1.connections k2 = some h := by
  induction ks generalizing st with
  | nil => simpa [runConnCalls] using hb
  | cons k ks ih =>
      simpa [runConnCalls] using ih _ (get_connection_mono st k k2 h hb)

/-- Each returned handler is the one bound in the final state. -/
theorem runConnCalls_result_bound (ks : List String) (st : ConnState) (k : String) (h : Nat)
    (hmem : (k, h) ∈ (runConnCalls st ks).2) :
    dictGet (runConnCalls st ks).1.connections k = some h := by
  induction ks generalizing st with
  | nil => simp [runConnCalls] at hmem
  | cons k1 ks ih =>
      simp only [runConnCalls, List.mem_cons] at hmem
      rcases hmem with hmem | hmem
      · rw [Prod.mk.injEq] at hmem
        obtain ⟨hk, hh⟩ := hmem
        subst hk
        have hb : dictGet (ConnectionManager.get_connection st k).1.connections k = some h := by
          unfold ConnectionManager.get_connection at hh ⊢
          cases hget : dictGet st.connections k with
          | some v =>
              simp only [hget] at hh ⊢
              rw [hh]
          | none =>
              simp only [hget] at hh ⊢
              rw [dictGet_dictSet_self, hh]
        exact runConnCalls_mono ks _ k h hb
      · exact ih _ hmem

/-- Connection-manager well-formedness: duplicate-free keys, and the
connect log holds exactly one entry per stored key and none otherwise. -/
def ConnWF (st : ConnState) : Prop :=
  (st.connections.map Prod.fst).Nodup ∧
  ∀ k, st.connectLog.count k = if (dictGet st.connections k).isSome then 1 else 0

/-- get_connection preserves well-formedness. -/
theorem get_connection_wf (st : ConnState) (k : String) (h : ConnWF st) :
    ConnWF (ConnectionManager.get_connection st k).1 := by
  obtain ⟨hnd, hcount⟩ := h
  unfold ConnectionManager.get_connection
  cases hk : dictGet st.connections k with
  | some v => exact ⟨hnd, hcount⟩
  | none =>
      have habs : k ∉ st.connections.map Prod.fst := (dictGet_eq_none_iff _ _).mp hk
      constructor
      · show (List.map Prod.fst (dictSet st.connections k st.nextHandle)).Nodup
        rw [dictSet_keys_of_absent _ _ _ habs]
        refine List.Nodup.append hnd (List.nodup_singleton k) ?_
        intro x hx hx2
        simp only [List.mem_singleton] at hx2
        exact habs (hx2 ▸ hx)
      · intro k2
        by_cases he : k2 = k
        · subst he
          simp [List.count_append, hcount k2, hk, dictGet_dictSet_self]
        · simp [List.count_append, hcount k2, dictGet_dictSet_ne _ _ _ _ (Ne.symm he),
            List.count_singleton, he]

/-- A run from a well-formed state stays well-formed. -/
theorem runConnCalls_wf (ks : List String) (st : ConnState) (h : ConnWF st) :
    ConnWF (runConnCalls st ks).1 := by
  induction ks generalizing st with
  | nil => simpa [runConnCalls] using h
  | cons k ks ih => simpa [runConnCalls] using ih _ (get_connection_wf st k h)

/-- After a run, a key is bound exactly when it was bound before or was
requested during the run. -/
theorem runConnCalls_bound_iff (ks : List String) (st : ConnState) (k : String) :
    (dictGet (runConnCalls st ks).1.connections k).isSome =
      ((dictGet st.connections k).isSome || decide (k ∈ ks)) := by
  induction ks generalizing st with
  | nil => simp [runConnCalls]
  | cons k1 ks ih =>
      simp only [runConnCalls]
      rw [ih]
      unfold ConnectionManager.get_connection
      cases hk : dictGet st.connections k1 with
      | some v =>
          by_cases he : k = k1
          · subst he; simp [hk]
          · simp [hk, List.mem_cons, he]
      | none =>
          by_cases he : k = k1
          · subst he; simp [dictGet_dictSet_self, List.mem_cons]
          · simp [dictGet_dictSet_ne _ _ _ _ (Ne.symm he), List.mem_cons, he]

/-- C7: over any sequence of get_connection calls (concurrent callers
are serialized by the manager's lock, so any concurrent execution is
one such sequence), two calls for the same key always receive the same
handler instance, the key's connect() was performed exactly once, and
the registry holds at most one handler per key. -/
theorem claim_C7_single_connection (ks : List String) (k : String) (h1 h2 : Nat)
    (hm1 : (k, h1) ∈ (runConnCalls ConnState.init ks).2)
    (hm2 : (k, h2) ∈ (runConnCalls ConnState.init ks).2) :
    h1 = h2 ∧
    (runConnCalls ConnState.init ks).1.connectLog.count k = 1 ∧
    ((runConnCalls ConnState.init ks).1.connections.map Prod.fst).Nodup := by
  have hwf0 : ConnWF ConnState.init :=
    ⟨List.nodup_nil, fun k2 => by simp [ConnState.init, dictGet]⟩
  have hwf := runConnCalls_wf ks ConnState.init hwf0
  have hb1 := runConnCalls_result_bound ks ConnState.init k h1 hm1
  have hb2 := runConnCalls_result_bound ks ConnState.init k h2 hm2
  refine ⟨Option.some.inj (hb1.symm.trans hb2), ?_, hwf.1⟩
  have hsome : (dictGet (runConnCalls ConnState.init ks).1.connections k).isSome = true := by
    rw [hb1]; rfl
  rw [hwf.2 k, hsome]
  rfl

/-- Witness for C7: three calls, two of them for "x". -/
theorem claim_C7_single_connection_witness :
    (0 : Nat) = 0 ∧
    (runConnCalls ConnState.init ["x", "x", "y"]).1.connectLog.count "x" = 1 ∧
    ((runConnCalls ConnState.init ["x", "x", "y"]).1.connections.map Prod.fst).Nodup :=
  claim_C7_single_connection ["x", "x", "y"] "x" 0 0 (by decide) (by decide)

/-- Python set.add on a set modelled as a duplicate-free list. -/
def setAdd (l : List String) (s : String) : List String :=
  if s ∈ l then l else l ++ [s]

/-- State of the SessionManager of session_manager.py together with the
output document and persistence store it reaches through the global
handlers. `evicted` is bookkeeping (not a field of the source class):
the log of the remove_session calls performed, letting theorems speak
about the sessions evicted during an observed run. -/
structure SessionManagerState where
  max_sessions : Nat
  session_ttl : Int
  active_sessions : List String
  session_timestamps : List (String × Int)
  output : OutputData
  persisted : List (String × AlertData)
  evicted : List String
deriving Repr

/-- SessionManager.remove_session: drops the id from the active set and
the timestamp dict, and clears the session's in-memory output sections;
persisted files are deliberately not deleted (source comment). -/
def SessionManager.remove_session (st : SessionManagerState) (session_id : String) :
    SessionManagerState :=
  { st with
    active_sessions := st.active_sessions.filter (fun x => x ≠ session_id),
    session_timestamps := dictDel st.session_timestamps session_id,
    output := OutputHandler.clear_session_data st.output session_id,
    evicted := st.evicted ++ [session_id] }

/-- SessionManager._cleanup_oldest_sessions: unless under the limit and
not immediate, sorts the tracked sessions by timestamp and removes the
oldest `len(active) - max_sessions + 10` of them (the extra 10 is the
source's buffer). The sort models Python sorted(...) by value. -/
def SessionManager.cleanup_oldest (st : SessionManagerState) (immediate : Bool) :
    SessionManagerState :=
  if st.active_sessions.length ≤ st.max_sessions ∧ immediate = false then st
  else
    let sorted := st.session_timestamps.insertionSort (fun a b => a.2 ≤ b.2)
    let sessions_to_remove : Int :=
      (st.active_sessions.length : Int) - (st.max_sessions : Int) + 10
    (sorted.take sessions_to_remove.toNat).foldl
      (fun s p => SessionManager.remove_session s p.1) st

/-- SessionManager.add_session at clock value `now`: tracks the id,
stamps it, and — when the capacity is exceeded — triggers the immediate
cleanup task; the created task is modelled as running before the call
is observed, which is what the claim inspects ("after the triggered
cleanup runs"). -/
def SessionManager.add_session (st : SessionManagerState) (session_id : String) (now : Int) :
    SessionManagerState :=
  let st1 := { st with
    active_sessions := setAdd st.active_sessions session_id,
    session_timestamps := dictSet st.session_timestamps session_id now }
  if st1.active_sessions.length > st1.max_sessions then
    SessionManager.cleanup_oldest st1 true
  else st1

/-- SessionManager.update_session: refreshes the timestamp of a tracked
session. -/
def SessionManager.update_session (st : SessionManagerState) (session_id : String) (now : Int) :
    SessionManagerState :=
  if session_id ∈ st.active_sessions then
    { st with session_timestamps := dictSet st.session_timestamps session_id now }
  else st

/-- SessionManager._cleanup_expired_sessions at clock value `now`:
collects every session whose age exceeds the TTL, then removes each. -/
def SessionManager.cleanup_expired (st : SessionManagerState) (now : Int) :
    SessionManagerState :=
  let expired := (st.session_timestamps.filter
      (fun p => st.session_ttl < now - p.2)).map Prod.fst
  expired.foldl (fun s sid => SessionManager.remove_session s sid) st

/-- Admitting a sequence of sessions, each with its arrival clock. -/
def admitRun (st : SessionManagerState) (ids : List (String × Int)) : SessionManagerState :=
  ids.foldl (fun s p => SessionManager.add_session s p.1 p.2) st

/-- JSONFilePersistence.load_session_data against the store carried in
the state. -/
def load_session_data (st : SessionManagerState) (session_id : String) : Option AlertData :=
  dictGet st.persisted session_id

/-- The two registry structures agree: both duplicate-free and tracking
the same ids. -/
def Coherent (st : SessionManagerState) : Prop :=
  st.active_sessions.Nodup ∧
  (st.session_timestamps.map Prod.fst).Nodup ∧
  (∀ s ∈ st.active_sessions, s ∈ st.session_timestamps.map Prod.fst) ∧
  (∀ s ∈ st.session_timestamps.map Prod.fst, s ∈ st.active_sessions)

/-- The document holds no section belonging to the given session. -/
def noSectionFor (od : OutputData) (session_id : String) : Prop :=
  ∀ kv ∈ od, kv.2.sessionId ≠ some session_id

/-- Every session in the eviction log has had its sections cleared. -/
def EvictedCleared (st : SessionManagerState) : Prop :=
  ∀ s ∈ st.evicted, noSectionFor st.output s

/-- Deleting a key removes its binding. -/
theorem dictGet_dictDel_self {κ α : Type} [DecidableEq κ] (l : List (κ × α)) (k : κ) :
    dictGet (dictDel l k) k = none := by
  rw [dictGet_eq_none_iff]
  intro hmem
  obtain ⟨p, hp, hfst⟩ := List.mem_map.mp hmem
  have := (List.mem_filter.mp hp).2
  simp only [decide_not, Bool.not_eq_eq_eq_not, Bool.not_true, decide_eq_false_iff_not] at this
  exact this hfst

/-- Deleting any key keeps absent keys absent. -/
theorem dictGet_dictDel_none {κ α : Type} [DecidableEq κ] (l : List (κ × α)) (k s : κ)
    (h : dictGet l s = none) : dictGet (dictDel l k) s = none := by
  rw [dictGet_eq_none_iff] at h ⊢
  intro hmem
  obtain ⟨p, hp, hfst⟩ := List.mem_map.mp hmem
  exact h (List.mem_map.mpr ⟨p, (List.mem_filter.mp hp).1, hfst⟩)

/-- Keys after a deletion are the filtered keys. -/
theorem map_fst_dictDel {κ α : Type} [DecidableEq κ] (l : List (κ × α)) (k : κ) :
    (dictDel l k).map Prod.fst = (l.map Prod.fst).filter (fun x => x ≠ k) := by
  simp only [dictDel]
  induction l with
  | nil => rfl
  | cons p rest ih =>
      simp only [decide_not] at ih
      by_cases h : p.1 = k
      · simp [List.filter_cons, h, ih, decide_not]
      · simp [List.filter_cons, h, ih, decide_not]

/-- Setting a present key keeps the key list unchanged. -/
theorem dictSet_keys_of_present {κ α : Type} [DecidableEq κ] (l : List (κ × α)) (k : κ) (v : α)
    (h : k ∈ l.map Prod.fst) :
    (dictSet l k v).map Prod.fst = l.map Prod.fst := by
  induction l with
  | nil => simp at h
  | cons p rest ih =>
      by_cases hp : p.1 = k
      · simp [dictSet, hp]
      · simp only [List.map_cons, List.mem_cons] at h
        rcases h with h | h
        · exact absurd h.symm hp
        · simp [dictSet, hp, ih h]

/-- Membership in the active set after remove_session. -/
theorem remove_session_active_mem (st : SessionManagerState) (sid y : String) :
    y ∈ (SessionManager.remove_session st sid).active_sessions ↔
      y ∈ st.active_sessions ∧ y ≠ sid := by
  simp [SessionManager.remove_session, List.mem_filter]

/-- remove_session leaves capacity, ttl and the persistence store
untouched, and appends to the eviction log. -/
theorem remove_session_frame (st : SessionManagerState) (sid : String) :
    (SessionManager.remove_session st sid).max_sessions = st.max_sessions ∧
    (SessionManager.remove_session st sid).session_ttl = st.session_ttl ∧
    (SessionManager.remove_session st sid).persisted = st.persisted ∧
    (SessionManager.remove_session st sid).evicted = st.evicted ++ [sid] :=
  ⟨rfl, rfl, rfl, rfl⟩

/-- remove_session preserves coherence of the two registries. -/
theorem remove_session_coh (st : SessionManagerState) (sid : String) (h : Coherent st) :
    Coherent (SessionManager.remove_session st sid) := by
  obtain ⟨hnd, hknd, hak, hka⟩ := h
  refine ⟨hnd.filter _, ?_, ?_, ?_⟩
  · show ((dictDel st.session_timestamps sid).map Prod.fst).Nodup
    rw [map_fst_dictDel]
    exact hknd.filter _
  · intro s hs
    rw [remove_session_active_mem] at hs
    show s ∈ (dictDel st.session_timestamps sid).map Prod.fst
    rw [map_fst_dictDel, List.mem_filter]
    exact ⟨hak s hs.1, by simpa using hs.2⟩
  · intro s hs
    rw [remove_session_active_mem]
    have hs2 : s ∈ (dictDel st.session_timestamps sid).map Prod.fst := hs
    rw [map_fst_dictDel, List.mem_filter] at hs2
    exact ⟨hka s hs2.1, by simpa using hs2.2⟩

/-- Filtering one element out of a duplicate-free list shortens it by
exactly one. -/
theorem filter_ne_length_of_nodup (l : List String) (x : String)
    (hnd : l.Nodup) (hmem : x ∈ l) :
    (l.filter (fun y => y ≠ x)).length + 1 = l.length := by
  induction l with
  | nil => simp at hmem
  | cons a rest ih =>
      rcases List.nodup_cons.mp hnd with ⟨hna, hndr⟩
      by_cases h : a = x
      · subst h
        simp [List.filter_cons]
        exact fun y hy he => hna (he ▸ hy)
      · have hxr : x ∈ rest := by
          rcases List.mem_cons.mp hmem with he | hr
          · exact absurd he.symm h
          · exact hr
        have ihr := ih hndr hxr
        simp only [decide_not] at ihr
        simp [List.filter_cons, h, ihr]

/-- Removing a tracked session shrinks the active count by one. -/
theorem remove_session_len (st : SessionManagerState) (sid : String)
    (hnd : st.active_sessions.Nodup) (hmem : sid ∈ st.active_sessions) :
    (SessionManager.remove_session st sid).active_sessions.length + 1 =
      st.active_sessions.length :=
  filter_ne_length_of_nodup st.active_sessions sid hnd hmem

/-- The cleared document holds nothing for the cleared session. -/
theorem clear_noSection (od : OutputData) (sid : String) :
    noSectionFor (OutputHandler.clear_session_data od sid) sid := by
  intro kv hkv
  have := (List.mem_filter.mp hkv).2
  simpa using this

/-- Clearing one session keeps other sessions' absences. -/
theorem clear_keeps_noSection (od : OutputData) (sid s : String)
    (h : noSectionFor od s) :
    noSectionFor (OutputHandler.clear_session_data od sid) s := by
  intro kv hkv
  exact h kv (List.mem_filter.mp hkv).1

/-- remove_session establishes the absence of its own session's
sections and keeps established absences. -/
theorem remove_session_noSection (st : SessionManagerState) (sid s : String) :
    noSectionFor (SessionManager.remove_session st sid).output sid ∧
    (noSectionFor st.output s → noSectionFor (SessionManager.remove_session st sid).output s) :=
  ⟨clear_noSection st.output sid, clear_keeps_noSection st.output sid s⟩

/-- remove_session keeps the eviction log cleared. -/
theorem remove_session_EC (st : SessionManagerState) (sid : String) (h : EvictedCleared st) :
    EvictedCleared (SessionManager.remove_session st sid) := by
  intro s hs
  rw [(remove_session_frame st sid).2.2.2, List.mem_append, List.mem_singleton] at hs
  rcases hs with hs | hs
  · exact (remove_session_noSection st sid s).2 (h s hs)
  · exact hs ▸ (remove_session_noSection st sid s).1

/-- The fold _cleanup_oldest_sessions performs over the sorted oldest
sessions. -/
def removePairs (st : SessionManagerState) (L : List (String × Int)) : SessionManagerState :=
  L.foldl (fun s p => SessionManager.remove_session s p.1) st

/-- removePairs leaves capacity, ttl and persistence untouched and logs
exactly the removed ids. -/
theorem removePairs_frame (L : List (String × Int)) (st : SessionManagerState) :
    (removePairs st L).max_sessions = st.max_sessions ∧
    (removePairs st L).session_ttl = st.session_ttl ∧
    (removePairs st L).persisted = st.persisted ∧
    (removePairs st L).evicted = st.evicted ++ L.map Prod.fst := by
  induction L generalizing st with
  | nil => simp [removePairs]
  | cons p rest ih =>
      have hr := ih (SessionManager.remove_session st p.1)
      simp only [removePairs, List.foldl_cons] at hr ⊢
      refine ⟨hr.1, hr.2.1, hr.2.2.1, ?_⟩
      rw [hr.2.2.2]
      show (st.evicted ++ [p.1]) ++ rest.map Prod.fst = st.evicted ++ p.1 :: rest.map Prod.fst
      simp

/-- removePairs preserves coherence. -/
theorem removePairs_coh (L : List (String × Int)) (st : SessionManagerState)
    (h : Coherent st) : Coherent (removePairs st L) := by
  induction L generalizing st with
  | nil => simpa [removePairs] using h
  | cons p rest ih =>
      simpa [removePairs] using ih _ (remove_session_coh st p.1 h)

/-- removePairs keeps the eviction log cleared. -/
theorem removePairs_EC (L : List (String × Int)) (st : SessionManagerState)
    (h : EvictedCleared st) : EvictedCleared (removePairs st L) := by
  induction L generalizing st with
  | nil => simpa [removePairs] using h
  | cons p rest ih =>
      simpa [removePairs] using ih _ (remove_session_EC st p.1 h)

/-- An absent timestamp binding stays absent through removePairs. -/
theorem removePairs_ts_none (L : List (String × Int)) (st : SessionManagerState) (s : String)
    (h : dictGet st.session_timestamps s = none) :
    dictGet (removePairs st L).session_timestamps s = none := by
  induction L generalizing st with
  | nil => simpa [removePairs] using h
  | cons p rest ih =>
      simpa [removePairs] using ih _ (dictGet_dictDel_none _ _ _ h)

/-- An established section absence survives removePairs. -/
theorem removePairs_keeps_noSection (L : List (String × Int)) (st : SessionManagerState)
    (s : String) (h : noSectionFor st.output s) :
    noSectionFor (removePairs st L).output s := by
  induction L generalizing st with
  | nil => simpa [removePairs] using h
  | cons p rest ih =>
      simpa [removePairs] using ih _ ((remove_session_noSection st p.1 s).2 h)

/-- A session once absent from the active set stays absent through
removePairs. -/
theorem removePairs_absent (L : List (String × Int)) (st : SessionManagerState) (s : String)
    (h : s ∉ st.active_sessions) : s ∉ (removePairs st L).active_sessions := by
  induction L generalizing st with
  | nil => simpa [removePairs] using h
  | cons p rest ih =>
      refine ih (SessionManager.remove_session st p.1) ?_
      rw [remove_session_active_mem]
      intro hc
      exact h hc.1

/-- Removing distinct, tracked sessions shrinks the count by exactly
their number. -/
theorem removePairs_len (L : List (String × Int)) (st : SessionManagerState)
    (hnd : st.active_sessions.Nodup) (hLnd : (L.map Prod.fst).Nodup)
    (hmem : ∀ x ∈ L.map Prod.fst, x ∈ st.active_sessions) :
    (removePairs st L).active_sessions.length + L.length = st.active_sessions.length := by
  induction L generalizing st with
  | nil => simp [removePairs]
  | cons p rest ih =>
      simp only [List.map_cons, List.nodup_cons] at hLnd
      have hp : p.1 ∈ st.active_sessions := hmem p.1 (by simp)
      have hnd2 : (SessionManager.remove_session st p.1).active_sessions.Nodup :=
        hnd.filter _
      have hmem2 : ∀ x ∈ rest.map Prod.fst,
          x ∈ (SessionManager.remove_session st p.1).active_sessions := by
        intro x hx
        rw [remove_session_active_mem]
        refine ⟨hmem x (by simp [hx]), ?_⟩
        intro he
        exact hLnd.1 (he ▸ hx)
      have ihr := ih (SessionManager.remove_session st p.1) hnd2 hLnd.2 hmem2
      have hlen := remove_session_len st p.1 hnd hp
      simp only [removePairs, List.foldl_cons] at ihr ⊢
      simp only [List.length_cons]
      omega

/-- Any session named in the removal list is gone from both registry
structures afterwards. -/
theorem removePairs_removes (L : List (String × Int)) (st : SessionManagerState) (s : String)
    (hs : s ∈ L.map Prod.fst) :
    s ∉ (removePairs st L).active_sessions ∧
    dictGet (removePairs st L).session_timestamps s = none := by
  induction L generalizing st with
  | nil => simp at hs
  | cons p rest ih =>
      by_cases he : s ∈ rest.map Prod.fst
      · simpa [removePairs] using ih (SessionManager.remove_session st p.1) he
      · have hps : p.1 = s := by
          rw [List.map_cons] at hs
          rcases List.mem_cons.mp hs with h1 | h1
          · exact h1.symm
          · exact absurd h1 he
        subst hps
        constructor
        · show p.1 ∉ (removePairs (SessionManager.remove_session st p.1) rest).active_sessions
          refine removePairs_absent rest _ p.1 ?_
          rw [remove_session_active_mem]
          simp
        · show dictGet (removePairs (SessionManager.remove_session st p.1) rest).session_timestamps p.1 = none
          exact removePairs_ts_none rest _ p.1 (dictGet_dictDel_self st.session_timestamps p.1)

/-- Any session named in the removal list has no in-memory sections
afterwards. -/
theorem removePairs_noSection (L : List (String × Int)) (st : SessionManagerState) (s : String)
    (hs : s ∈ L.map Prod.fst) : noSectionFor (removePairs st L).output s := by
  induction L generalizing st with
  | nil => simp at hs
  | cons p rest ih =>
      by_cases he : s ∈ rest.map Prod.fst
      · simpa [removePairs] using ih (SessionManager.remove_session st p.1) he
      · have hps : p.1 = s := by
          rw [List.map_cons] at hs
          rcases List.mem_cons.mp hs with h1 | h1
          · exact h1.symm
          · exact absurd h1 he
        subst hps
        show noSectionFor (removePairs (SessionManager.remove_session st p.1) rest).output p.1
        exact removePairs_keeps_noSection rest _ p.1 (remove_session_noSection st p.1 p.1).1

/-- cleanup_oldest unfolded onto removePairs. -/
theorem cleanup_oldest_eq (st : SessionManagerState) (immediate : Bool) :
    SessionManager.cleanup_oldest st immediate =
      if st.active_sessions.length ≤ st.max_sessions ∧ immediate = false then st
      else
        removePairs st
          ((st.session_timestamps.insertionSort (fun a b => a.2 ≤ b.2)).take
            ((st.active_sessions.length : Int) - (st.max_sessions : Int) + 10).toNat) := rfl

/-- The triggered cleanup brings the session count back under the
capacity ceiling. -/
theorem cleanup_oldest_bound (st : SessionManagerState)
    (hcoh : Coherent st) (hlt : st.max_sessions < st.active_sessions.length) :
    (SessionManager.cleanup_oldest st true).active_sessions.length ≤ st.max_sessions := by
  obtain ⟨hnd, hknd, hak, hka⟩ := hcoh
  rw [cleanup_oldest_eq]
  rw [if_neg (by simp)]
  set sorted := st.session_timestamps.insertionSort (fun a b => a.2 ≤ b.2) with hsorted
  set k := ((st.active_sessions.length : Int) - (st.max_sessions : Int) + 10).toNat with hk
  have hperm : sorted.Perm st.session_timestamps := List.perm_insertionSort _ _
  have hpermf : (sorted.map Prod.fst).Perm (st.session_timestamps.map Prod.fst) :=
    hperm.map _
  have hsnd : (sorted.map Prod.fst).Nodup := hpermf.nodup_iff.mpr hknd
  have hmaptake : (sorted.take k).map Prod.fst = (sorted.map Prod.fst).take k :=
    List.map_take _ _ _
  have hLnd : ((sorted.take k).map Prod.fst).Nodup := by
    rw [hmaptake]
    exact hsnd.sublist (List.take_sublist _ _)
  have hLmem : ∀ x ∈ (sorted.take k).map Prod.fst, x ∈ st.active_sessions := by
    intro x hx
    rw [hmaptake] at hx
    have hx2 : x ∈ sorted.map Prod.fst := List.take_subset _ _ hx
    exact hka x (hpermf.mem_iff.mp hx2)
  have hrem := removePairs_len (sorted.take k) st hnd hLnd hLmem
  have htsa : (st.session_timestamps.map Prod.fst).Perm st.active_sessions :=
    (List.perm_ext_iff_of_nodup hknd hnd).mpr (fun s => ⟨hka s, hak s⟩)
  have htsl : st.session_timestamps.length = st.active_sessions.length := by
    have h1 := htsa.length_eq
    simpa using h1
  have hsl : sorted.length = st.active_sessions.length := by
    rw [hperm.length_eq, htsl]
  have htl : (sorted.take k).length = min k sorted.length := List.length_take _ _
  have hkval : k = st.active_sessions.length - st.max_sessions + 10 := by
    rw [hk]; omega
  omega

/-- cleanup_oldest preserves coherence, frame fields and the cleared
eviction log. -/
theorem cleanup_oldest_preserves (st : SessionManagerState) (immediate : Bool) :
    (Coherent st → Coherent (SessionManager.cleanup_oldest st immediate)) ∧
    (SessionManager.cleanup_oldest st immediate).max_sessions = st.max_sessions ∧
    (SessionManager.cleanup_oldest st immediate).session_ttl = st.session_ttl ∧
    (SessionManager.cleanup_oldest st immediate).persisted = st.persisted ∧
    (EvictedCleared st → EvictedCleared (SessionManager.cleanup_oldest st immediate)) := by
  rw [cleanup_oldest_eq]
  by_cases hc : st.active_sessions.length ≤ st.max_sessions ∧ immediate = false
  · rw [if_pos hc]
    exact ⟨id, rfl, rfl, rfl, id⟩
  · rw [if_neg hc]
    refine ⟨fun h => removePairs_coh _ _ h, ?_, ?_, ?_, fun h => removePairs_EC _ _ h⟩
    · exact (removePairs_frame _ _).1
    · exact (removePairs_frame _ _).2.1
    · exact (removePairs_frame _ _).2.2.1

/-- Membership in setAdd. -/
theorem setAdd_mem (l : List String) (s y : String) :
    y ∈ setAdd l s ↔ y ∈ l ∨ y = s := by
  by_cases h : s ∈ l
  · simp only [setAdd, if_pos h]
    constructor
    · exact fun hy => Or.inl hy
    · rintro (hy | hy)
      · exact hy
      · exact hy ▸ h
  · simp [setAdd, if_neg h]

/-- setAdd keeps lists duplicate-free. -/
theorem setAdd_nodup (l : List String) (s : String) (h : l.Nodup) :
    (setAdd l s).Nodup := by
  by_cases hs : s ∈ l
  · simpa [setAdd, hs] using h
  · rw [setAdd, if_neg hs]
    refine List.Nodup.append h (List.nodup_singleton s) ?_
    intro x hx hx2
    simp only [List.mem_singleton] at hx2
    exact hs (hx2 ▸ hx)

/-- The state written by the first half of add_session, before the
capacity check. -/
def addTracked (st : SessionManagerState) (session_id : String) (now : Int) :
    SessionManagerState :=
  { st with
    active_sessions := setAdd st.active_sessions session_id,
    session_timestamps := dictSet st.session_timestamps session_id now }

/-- add_session unfolded onto addTracked and cleanup_oldest. -/
theorem add_session_eq (st : SessionManagerState) (session_id : String) (now : Int) :
    SessionManager.add_session st session_id now =
      if (addTracked st session_id now).active_sessions.length >
          (addTracked st session_id now).max_sessions then
        SessionManager.cleanup_oldest (addTracked st session_id now) true
      else addTracked st session_id now := rfl

/-- Tracking a session keeps the two registries coherent. -/
theorem addTracked_coh (st : SessionManagerState) (sid : String) (now : Int)
    (h : Coherent st) : Coherent (addTracked st sid now) := by
  obtain ⟨hnd, hknd, hak, hka⟩ := h
  by_cases hs : sid ∈ st.active_sessions
  · have hkeys : (dictSet st.session_timestamps sid now).map Prod.fst =
        st.session_timestamps.map Prod.fst :=
      dictSet_keys_of_present _ _ _ (hak sid hs)
    refine ⟨?_, ?_, ?_, ?_⟩
    · simpa [addTracked, setAdd, hs] using hnd
    · show ((dictSet st.session_timestamps sid now).map Prod.fst).Nodup
      rw [hkeys]; exact hknd
    · intro s hmem
      show s ∈ (dictSet st.session_timestamps sid now).map Prod.fst
      rw [hkeys]
      refine hak s ?_
      simpa [addTracked, setAdd, hs] using hmem
    · intro s hmem
      show s ∈ setAdd st.active_sessions sid
      rw [setAdd_mem]
      refine Or.inl (hka s ?_)
      show s ∈ st.session_timestamps.map Prod.fst
      rw [← hkeys]
      exact hmem
  · have hks : sid ∉ st.session_timestamps.map Prod.fst := fun hc => hs (hka sid hc)
    have hkeys : (dictSet st.session_timestamps sid now).map Prod.fst =
        st.session_timestamps.map Prod.fst ++ [sid] :=
      dictSet_keys_of_absent _ _ _ hks
    refine ⟨setAdd_nodup _ _ hnd, ?_, ?_, ?_⟩
    · show ((dictSet st.session_timestamps sid now).map Prod.fst).Nodup
      rw [hkeys]
      refine List.Nodup.append hknd (List.nodup_singleton sid) ?_
      intro x hx hx2
      simp only [List.mem_singleton] at hx2
      exact hks (hx2 ▸ hx)
    · intro s hmem
      show s ∈ (dictSet st.session_timestamps sid now).map Prod.fst
      rw [hkeys, List.mem_append, List.mem_singleton]
      rcases (setAdd_mem _ _ _).mp hmem with hm | hm
      · exact Or.inl (hak s hm)
      · exact Or.inr hm
    · intro s hmem
      show s ∈ setAdd st.active_sessions sid
      rw [setAdd_mem]
      have hmem2 : s ∈ (dictSet st.session_timestamps sid now).map Prod.fst := hmem
      rw [hkeys, List.mem_append, List.mem_singleton] at hmem2
      rcases hmem2 with hm | hm
      · exact Or.inl (hka s hm)
      · exact Or.inr hm

/-- add_session preserves coherence, frame fields and the cleared
eviction log, and always ends at or below the capacity ceiling. -/
theorem add_session_preserves (st : SessionManagerState) (sid : String) (now : Int)
    (h : Coherent st) :
    Coherent (SessionManager.add_session st sid now) ∧
    (SessionManager.add_session st sid now).max_sessions = st.max_sessions ∧
    (SessionManager.add_session st sid now).session_ttl = st.session_ttl ∧
    (SessionManager.add_session st sid now).persisted = st.persisted ∧
    (EvictedCleared st → EvictedCleared (SessionManager.add_session st sid now)) ∧
    (SessionManager.add_session st sid now).active_sessions.length ≤ st.max_sessions := by
  rw [add_session_eq]
  have hcoh1 : Coherent (addTracked st sid now) := addTracked_coh st sid now h
  by_cases hgt : (addTracked st sid now).active_sessions.length >
      (addTracked st sid now).max_sessions
  · rw [if_pos hgt]
    have hp := cleanup_oldest_preserves (addTracked st sid now) true
    have hb := cleanup_oldest_bound (addTracked st sid now) hcoh1 hgt
    exact ⟨hp.1 hcoh1, hp.2.1, hp.2.2.1, hp.2.2.2.1,
      fun hec => hp.2.2.2.2 hec, hb⟩
  · rw [if_neg hgt]
    exact ⟨hcoh1, rfl, rfl, rfl, fun hec => hec, Nat.le_of_not_lt hgt⟩

/-- admitRun preserves coherence, frame fields and the cleared log. -/
theorem admitRun_preserves (ids : List (String × Int)) (st : SessionManagerState)
    (h : Coherent st) :
    Coherent (admitRun st ids) ∧
    (admitRun st ids).max_sessions = st.max_sessions ∧
    (admitRun st ids).session_ttl = st.session_ttl ∧
    (admitRun st ids).persisted = st.persisted ∧
    (EvictedCleared st → EvictedCleared (admitRun st ids)) := by
  induction ids generalizing st with
  | nil => exact ⟨h, rfl, rfl, rfl, fun hec => hec⟩
  | cons p rest ih =>
      have hstep := add_session_preserves st p.1 p.2 h
      have ihr := ih (SessionManager.add_session st p.1 p.2) hstep.1
      simp only [admitRun, List.foldl_cons] at ihr ⊢
      refine ⟨ihr.1, ?_, ?_, ?_, ?_⟩
      · rw [ihr.2.1, hstep.2.1]
      · rw [ihr.2.2.1, hstep.2.2.1]
      · rw [ihr.2.2.2.1, hstep.2.2.2.1]
      · intro hec
        exact ihr.2.2.2.2 (hstep.2.2.2.2.1 hec)

/-- After at least one admission the count sits at or below capacity. -/
theorem admitRun_bound (ids : List (String × Int)) (st : SessionManagerState)
    (h : Coherent st) (hne : ids ≠ []) :
    (admitRun st ids).active_sessions.length ≤ st.max_sessions := by
  induction ids generalizing st with
  | nil => exact absurd rfl hne
  | cons p rest ih =>
      have hstep := add_session_preserves st p.1 p.2 h
      by_cases hr : rest = []
      · subst hr
        simpa [admitRun] using hstep.2.2.2.2.2
      · have ihr := ih (SessionManager.add_session st p.1 p.2) hstep.1 hr
        simp only [admitRun, List.foldl_cons] at ihr ⊢
        rw [hstep.2.1] at ihr
        exact ihr

/-- C3: starting from any coherent registry with a fresh eviction log,
admitting any non-empty sequence of sessions (so in particular
capacity + K of them) leaves the tracked-id count at most max_sessions
once the triggered cleanups have run; every session evicted along the
way has no in-memory output section left (its document view is fresh),
and the persistence store is untouched, so loading any previously saved
artifact still returns it. -/
theorem claim_C3_eviction_bounds_memory (st : SessionManagerState)
    (ids : List (String × Int)) (hcoh : Coherent st) (hev : st.evicted = [])
    (hne : ids ≠ []) :
    (admitRun st ids).active_sessions.length ≤ st.max_sessions ∧
    (∀ s ∈ (admitRun st ids).evicted, noSectionFor (admitRun st ids).output s) ∧
    (∀ sid doc, load_session_data st sid = some doc →
      load_session_data (admitRun st ids) sid = some doc) := by
  have hp := admitRun_preserves ids st hcoh
  refine ⟨admitRun_bound ids st hcoh hne, ?_, ?_⟩
  · exact hp.2.2.2.2 (fun s hs => by rw [hev] at hs; exact absurd hs (List.not_mem_nil s))
  · intro sid doc hload
    show dictGet (admitRun st ids).persisted sid = some doc
    rw [hp.2.2.2.1]
    exact hload

/-- Witness for C3: capacity 2, five admissions; the count ends at or
under 2, evicted sessions keep no sections, persisted data survives. -/
theorem claim_C3_eviction_bounds_memory_witness :
    (admitRun ⟨2, 100, [], [], [], [("p1", [("k", "v")])], []⟩
        [("a", 0), ("b", 1), ("c", 2), ("d", 3), ("e", 4)]).active_sessions.length ≤ 2 ∧
    (∀ s ∈ (admitRun ⟨2, 100, [], [], [], [("p1", [("k", "v")])], []⟩
        [("a", 0), ("b", 1), ("c", 2), ("d", 3), ("e", 4)]).evicted,
      noSectionFor (admitRun ⟨2, 100, [], [], [], [("p1", [("k", "v")])], []⟩
        [("a", 0), ("b", 1), ("c", 2), ("d", 3), ("e", 4)]).output s) ∧
    (∀ sid doc,
      load_session_data ⟨2, 100, [], [], [], [("p1", [("k", "v")])], []⟩ sid = some doc →
      load_session_data (admitRun ⟨2, 100, [], [], [], [("p1", [("k", "v")])], []⟩
        [("a", 0), ("b", 1), ("c", 2), ("d", 3), ("e", 4)]) sid = some doc) :=
  claim_C3_eviction_bounds_memory ⟨2, 100, [], [], [], [("p1", [("k", "v")])], []⟩
    [("a", 0), ("b", 1), ("c", 2), ("d", 3), ("e", 4)]
    ⟨List.nodup_nil, List.nodup_nil, by simp, by simp⟩ rfl (by simp)

/-- A dict hit comes from an actual binding in the list. -/
theorem dictGet_some_mem {κ α : Type} [DecidableEq κ] (l : List (κ × α)) (k : κ) (v : α)
    (h : dictGet l k = some v) : (k, v) ∈ l := by
  induction l with
  | nil => simp [dictGet] at h
  | cons p rest ih =>
      by_cases hp : p.1 = k
      · have hval : some p.2 = some v := by simpa [dictGet, hp] using h
        have hpe : p = (k, v) := by
          obtain ⟨a, b⟩ := p
          simp only at hp
          cases Option.some.inj hval
          simp [hp]
        exact List.mem_cons.mpr (Or.inl hpe.symm)
      · simp only [dictGet, hp, if_false] at h
        exact List.mem_cons.mpr (Or.inr (ih h))

/-- cleanup_expired unfolded onto removePairs over the expired
bindings. -/
theorem cleanup_expired_eq (st : SessionManagerState) (now : Int) :
    SessionManager.cleanup_expired st now =
      removePairs st (st.session_timestamps.filter
        (fun p => decide (st.session_ttl < now - p.2))) := by
  simp [SessionManager.cleanup_expired, removePairs, List.foldl_map]

/-- A sweep schedule with period I has a tick inside every half-open
window of length I: some tick lands strictly after c and at most c + I. -/
theorem sweep_schedule_hits (c s0 I : Int) (hI : 0 < I) (h0 : s0 ≤ c + I) :
    ∃ k : Nat, c < s0 + (k : Int) * I ∧ s0 + (k : Int) * I ≤ c + I := by
  by_cases hcs : c < s0
  · refine ⟨0, ?_, ?_⟩
    · simpa using hcs
    · simpa using h0
  · push_neg at hcs
    have hdnn : 0 ≤ c - s0 := by omega
    have hdI : ((c - s0).toNat : Int) = c - s0 := Int.toNat_of_nonneg hdnn
    have hiI : (I.toNat : Int) = I := Int.toNat_of_nonneg (le_of_lt hI)
    have hipos : 0 < I.toNat := by omega
    have hqr : I.toNat * ((c - s0).toNat / I.toNat) + (c - s0).toNat % I.toNat =
        (c - s0).toNat := Nat.div_add_mod _ _
    have hrlt : (c - s0).toNat % I.toNat < I.toNat := Nat.mod_lt _ hipos
    set q : Nat := (c - s0).toNat / I.toNat with hqdef
    set r : Nat := (c - s0).toNat % I.toNat with hrdef
    have h1 : I * (q : Int) + (r : Int) = c - s0 := by
      have hcast := congrArg (fun n : Nat => (n : Int)) hqr
      push_cast at hcast
      rw [hiI, hdI] at hcast
      exact hcast
    have h2 : (r : Int) < I := by
      rw [← hiI]
      exact_mod_cast hrlt
    have h3 : (0 : Int) ≤ (r : Int) := Int.ofNat_nonneg r
    refine ⟨q + 1, ?_, ?_⟩
    · push_cast
      nlinarith [h1, h2]
    · push_cast
      nlinarith [h1, h3]

/-- C8: a session stamped at time T and never refreshed is gone from
both registry structures once the periodic sweep whose tick falls in
the window (T + ttl, T + ttl + I] runs — that is, by time
T + ttl + one sweep interval the session has been removed. -/
theorem claim_C8_ttl_expiry (st : SessionManagerState) (sid : String) (T s0 I : Int)
    (hI : 0 < I) (h0 : s0 ≤ T + st.session_ttl + I)
    (hT : dictGet st.session_timestamps sid = some T) :
    ∃ k : Nat, s0 + (k : Int) * I ≤ T + st.session_ttl + I ∧
      sid ∉ (SessionManager.cleanup_expired st (s0 + (k : Int) * I)).active_sessions ∧
      dictGet (SessionManager.cleanup_expired st
        (s0 + (k : Int) * I)).session_timestamps sid = none := by
  obtain ⟨k, hk1, hk2⟩ := sweep_schedule_hits (T + st.session_ttl) s0 I hI h0
  have hexp : st.session_ttl < (s0 + (k : Int) * I) - T := by omega
  have hmemp : (sid, T) ∈ st.session_timestamps := dictGet_some_mem _ _ _ hT
  have hf : (sid, T) ∈ st.session_timestamps.filter
      (fun p => decide (st.session_ttl < (s0 + (k : Int) * I) - p.2)) :=
    List.mem_filter.mpr ⟨hmemp, by simpa using hexp⟩
  have hsmem : sid ∈ (st.session_timestamps.filter
      (fun p => decide (st.session_ttl < (s0 + (k : Int) * I) - p.2))).map Prod.fst :=
    List.mem_map.mpr ⟨(sid, T), hf, rfl⟩
  have hrem := removePairs_removes _ st sid hsmem
  refine ⟨k, hk2, ?_, ?_⟩
  · rw [cleanup_expired_eq]
    exact hrem.1
  · rw [cleanup_expired_eq]
    exact hrem.2

/-- Witness for C8: ttl 5, sweep period 3, session stamped at 0; some
sweep tick at most 8 removes it. -/
theorem claim_C8_ttl_expiry_witness :
    ∃ k : Nat, (0 : Int) + (k : Int) * 3 ≤ 0 + 5 + 3 ∧
      "a" ∉ (SessionManager.cleanup_expired ⟨10, 5, ["a"], [("a", 0)], [], [], []⟩
        ((0 : Int) + (k : Int) * 3)).active_sessions ∧
      dictGet (SessionManager.cleanup_expired ⟨10, 5, ["a"], [("a", 0)], [], [], []⟩
        ((0 : Int) + (k : Int) * 3)).session_timestamps "a" = none :=
  claim_C8_ttl_expiry ⟨10, 5, ["a"], [("a", 0)], [], [], []⟩ "a" 0 0 3
    (by decide) (by decide) (by decide)

/-- The fields of a successfully parsed inbound message that the agent
loops read. -/
structure MsgPayload where
  alert_id : Option String
  session_id : Option String
  raw_log_data : AlertData
  mitre_analysis : MitreAnalysis
deriving DecidableEq, Repr

/-- The tactic_mapping table of AnalysisAgent._update_attack_output. -/
def tactic_mapping : List (String × String) :=
  [("Defense Evasion", "TA0005"), ("Privilege Escalation", "TA0004"),
   ("Execution", "TA0002"), ("Initial Access", "TA0001"),
   ("Persistence", "TA0003"), ("Discovery", "TA0007"),
   ("Collection", "TA0009"), ("Command and Control", "TA0011"),
   ("Exfiltration", "TA0010"), ("Impact", "TA0040")]

/-- AnalysisAgent._update_attack_output (wrapped in its own try/except,
so it never raises into the loop). -/
def AnalysisAgent.update_attack_output (st : SystemState) (session_id : String)
    (res : MitreAnalysis) : SystemState :=
  let tactic_name := res.tactic.getD "Unknown"
  let tactic_id := (dictGet tactic_mapping tactic_name).getD "TA0000"
  let confidence := res.confidence_score.getD 0
  let od := OutputHandler.update_attack_mapping st.output session_id
      [(tactic_id, tactic_name, confidence)]
  { st with output := od }

/-- Environment of one iteration of the Analysis Agent message loop:
the parse outcome of the fetched body (none = json.JSONDecodeError),
the result _analyze_alert returns (it catches all its own failures and
falls back to an error object, so it is a value, not an exception), and
the outcomes of the two steps that can raise out of the loop body — the
direct save_to_file call after update_overview, and the NATS publish. -/
structure AnalysisEnv where
  parse : Option MsgPayload
  analysisResult : MitreAnalysis
  saveFileOk : Bool
  saveFileErr : String
  publishOk : Bool
  publishErr : String
deriving Repr

/-- The `except Exception` recovery of the Analysis Agent loop: re-parse
the body (it parses, or the inner bare except swallows), fetch the
tracker and mark the stage as error; the message is NOT acknowledged. -/
def AnalysisAgent.recover (st : SystemState) (session_id msg : String) : SystemState :=
  let st := get_timeline_tracker st session_id
  { st with output := TimelineTracker.mark_stage_error st.output session_id .ANALYSIS_AGENT msg }

/-- One fetched message through the Analysis Agent loop body: returns
the new state and whether msg.ack() was called. -/
def AnalysisAgent.process_message (env : AnalysisEnv) (st : SystemState) :
    SystemState × Bool :=
  match env.parse with
  | none => (st, true)
  | some p =>
      let alert_id := p.alert_id.getD "unknown"
      let session_id := p.session_id.getD alert_id
      let st := get_timeline_tracker st session_id
      let st := { st with output :=
        TimelineTracker.mark_stage_in_progress st.output session_id .ANALYSIS_AGENT }
      let st := { st with alerts := dictSet st.alerts alert_id p.raw_log_data }
      let res := env.analysisResult
      let st := { st with analyses := dictSet st.analyses session_id res }
      let st := AnalysisAgent.update_attack_output st session_id res
      let od := OutputHandler.update_overview st.output session_id
        ("MITRE ATT&CK analysis completed. Identified technique: " ++
          res.technique_name.getD "Unknown")
      let st := { st with output := od }
      if env.saveFileOk = false then
        (AnalysisAgent.recover st session_id env.saveFileErr, false)
      else if env.publishOk = false then
        (AnalysisAgent.recover st session_id env.publishErr, false)
      else
        let st := { st with publishedSubjects := st.publishedSubjects ++ ["analysis"] }
        let st := { st with output :=
          TimelineTracker.mark_stage_success st.output session_id .ANALYSIS_AGENT }
        (st, true)

/-- The report sections _parse_markdown_report extracts (pure text
processing over the generated report, abstracted as an input). -/
structure ParsedReport where
  overview : String
  recommendations : List (String × String)
  executive : List (String × String)
  checklist : List (String × String)
deriving DecidableEq, Repr

/-- The %.2f presentation of the confidence score, modelled by the
decimal string of the rational. -/
def format2f (q : Rat) : String := toString q

/-- RecommendationAgent._update_output_sections (wrapped in its own
try/except, so it never raises into the loop): updates overview,
recommendation, executive summary and checklist, with the source's
defaults when a parsed section is missing. -/
def RecommendationAgent.update_output_sections (st : SystemState) (session_id : String)
    (mitre : MitreAnalysis) (report : String) (parsed : ParsedReport) : SystemState :=
  let st := { st with output := OutputHandler.update_overview st.output session_id parsed.overview }
  let st := match parsed.recommendations.head? with
    | some item =>
        { st with output := OutputHandler.update_recommendation st.output session_id item.1 item.2 }
    | none =>
        let od := OutputHandler.update_recommendation st.output session_id
            ("Generated incident response recommendations for " ++
              mitre.technique_name.getD "Unknown" ++ " technique") report
        { st with output := od }
  let st := match parsed.executive.head? with
    | some item =>
        { st with output := OutputHandler.update_executive_summary st.output session_id item.1 item.2 }
    | none =>
        let od := OutputHandler.update_executive_summary st.output session_id
            ("Security Incident Analysis - " ++ mitre.tactic.getD "Unknown")
            ("Detected " ++ mitre.technique_name.getD "Unknown" ++ " technique with " ++
              format2f (mitre.confidence_score.getD 0) ++
              " confidence score. Immediate containment and investigation recommended.")
        { st with output := od }
  match parsed.checklist.head? with
  | some item =>
      { st with output := OutputHandler.update_checklist st.output session_id item.1 item.2 }
  | none =>
      let od := OutputHandler.update_checklist st.output session_id
          "Incident Response Checklist"
          ("- [ ] Isolate affected host from network ... for " ++
            mitre.technique_name.getD "Unknown")
      { st with output := od }

/-- Environment of one iteration of the Recommendation Agent message
loop: the parse outcome, the report _generate_report returns (it
catches all its own failures and falls back to an error report), the
sections parsed out of the report, and the outcome of the NATS publish
(the only step of this body that can raise out of the loop: the tools
update, persistence save and section updates each swallow their own
errors). -/
structure RecommendationEnv where
  parse : Option MsgPayload
  report : String
  parsed : ParsedReport
  publishOk : Bool
  publishErr : String
deriving Repr

/-- The `except Exception` recovery of the Recommendation Agent loop:
mark the stage as error and append the terminal error entry; the
message is NOT acknowledged. -/
def RecommendationAgent.recover (st : SystemState) (session_id msg : String) : SystemState :=
  let st := get_timeline_tracker st session_id
  let st := { st with output :=
    TimelineTracker.mark_stage_error st.output session_id .RECOMMENDATION_AGENT msg }
  let od := TimelineTracker.complete_processing st.output session_id false
      ("Processing failed: " ++ msg)
  { st with output := od }

/-- One fetched message through the Recommendation Agent loop body:
returns the new state and whether msg.ack() was called. -/
def RecommendationAgent.process_message (env : RecommendationEnv) (st : SystemState) :
    SystemState × Bool :=
  match env.parse with
  | none => (st, true)
  | some p =>
      let alert_id := p.alert_id.getD "unknown"
      let session_id := p.session_id.getD alert_id
      let st := get_timeline_tracker st session_id
      let st := { st with output :=
        TimelineTracker.mark_stage_in_progress st.output session_id .RECOMMENDATION_AGENT }
      let st := { st with output :=
        OutputHandler.update_tools_status st.output session_id st.toolsData }
      let report := env.report
      let st := { st with reports := dictSet st.reports session_id report }
      let st := RecommendationAgent.update_output_sections st session_id
        p.mitre_analysis report env.parsed
      if env.publishOk = false then
        (RecommendationAgent.recover st session_id env.publishErr, false)
      else
        let st := { st with publishedSubjects := st.publishedSubjects ++ ["output"] }
        let st := { st with output :=
          TimelineTracker.mark_stage_success st.output session_id .RECOMMENDATION_AGENT }
        let st := { st with output :=
          TimelineTracker.mark_stage_success st.output session_id .OUTPUT_GENERATED }
        let od := TimelineTracker.complete_processing st.output session_id
          true "All processing stages completed successfully"
        let st := { st with output := od }
        (st, true)

/-- C9: the poison-message acknowledgment policy of both agent loops.
An unparseable body is acknowledged anyway; a parsed message whose
processing raises (save_to_file or publish in the Analysis Agent, the
publish in the Recommendation Agent) is not acknowledged, so it
redelivers; a fully processed message is acknowledged. -/
theorem claim_C9_poison_message_ack (envA : AnalysisEnv) (envR : RecommendationEnv)
    (st1 st2 : SystemState) :
    (envA.parse = none → (AnalysisAgent.process_message envA st1).2 = true) ∧
    (envA.parse.isSome = true → (envA.saveFileOk = false ∨ envA.publishOk = false) →
      (AnalysisAgent.process_message envA st1).2 = false) ∧
    (envA.parse.isSome = true → envA.saveFileOk = true → envA.publishOk = true →
      (AnalysisAgent.process_message envA st1).2 = true) ∧
    (envR.parse = none → (RecommendationAgent.process_message envR st2).2 = true) ∧
    (envR.parse.isSome = true → envR.publishOk = false →
      (RecommendationAgent.process_message envR st2).2 = false) ∧
    (envR.parse.isSome = true → envR.publishOk = true →
      (RecommendationAgent.process_message envR st2).2 = true) := by
  refine ⟨?_, ?_, ?_, ?_, ?_, ?_⟩
  · intro h
    simp [AnalysisAgent.process_message, h]
  · intro hsome hfail
    obtain ⟨p, hp⟩ := Option.isSome_iff_exists.mp hsome
    rcases hfail with hf | hf
    · simp [AnalysisAgent.process_message, hp, hf]
    · by_cases hsv : envA.saveFileOk = false
      · simp [AnalysisAgent.process_message, hp, hsv]
      · simp [AnalysisAgent.process_message, hp, hsv, hf]
  · intro hsome hsv hpb
    obtain ⟨p, hp⟩ := Option.isSome_iff_exists.mp hsome
    simp [AnalysisAgent.process_message, hp, hsv, hpb]
  · intro h
    simp [RecommendationAgent.process_message, h]
  · intro hsome hf
    obtain ⟨p, hp⟩ := Option.isSome_iff_exists.mp hsome
    simp [RecommendationAgent.process_message, hp, hf]
  · intro hsome hpb
    obtain ⟨p, hp⟩ := Option.isSome_iff_exists.mp hsome
    simp [RecommendationAgent.process_message, hp, hpb]

/-- Witness for C9: concrete runs of the six acknowledgment cases. -/
theorem claim_C9_poison_message_ack_witness :
    (AnalysisAgent.process_message ⟨none, ⟨none, none, none⟩, true, "", true, ""⟩
      SystemState.init).2 = true ∧
    (AnalysisAgent.process_message
      ⟨some ⟨some "A1", some "S1", [], ⟨none, none, none⟩⟩, ⟨none, none, none⟩,
        false, "disk full", true, ""⟩ SystemState.init).2 = false ∧
    (AnalysisAgent.process_message
      ⟨some ⟨some "A1", some "S1", [], ⟨none, none, none⟩⟩, ⟨none, none, none⟩,
        true, "", true, ""⟩ SystemState.init).2 = true ∧
    (RecommendationAgent.process_message ⟨none, "report", ⟨"ov", [], [], []⟩, true, ""⟩
      SystemState.init).2 = true ∧
    (RecommendationAgent.process_message
      ⟨some ⟨some "A1", some "S1", [], ⟨none, none, none⟩⟩, "report",
        ⟨"ov", [], [], []⟩, false, "nats down"⟩ SystemState.init).2 = false ∧
    (RecommendationAgent.process_message
      ⟨some ⟨some "A1", some "S1", [], ⟨none, none, none⟩⟩, "report",
        ⟨"ov", [], [], []⟩, true, ""⟩ SystemState.init).2 = true :=
  ⟨(claim_C9_poison_message_ack ⟨none, ⟨none, none, none⟩, true, "", true, ""⟩
      ⟨none, "report", ⟨"ov", [], [], []⟩, true, ""⟩
      SystemState.init SystemState.init).1 rfl,
   (claim_C9_poison_message_ack
      ⟨some ⟨some "A1", some "S1", [], ⟨none, none, none⟩⟩, ⟨none, none, none⟩,
        false, "disk full", true, ""⟩
      ⟨none, "report", ⟨"ov", [], [], []⟩, true, ""⟩
      SystemState.init SystemState.init).2.1 rfl (Or.inl rfl),
   (claim_C9_poison_message_ack
      ⟨some ⟨some "A1", some "S1", [], ⟨none, none, none⟩⟩, ⟨none, none, none⟩,
        true, "", true, ""⟩
      ⟨none, "report", ⟨"ov", [], [], []⟩, true, ""⟩
      SystemState.init SystemState.init).2.2.1 rfl rfl rfl,
   (claim_C9_poison_message_ack ⟨none, ⟨none, none, none⟩, true, "", true, ""⟩
      ⟨none, "report", ⟨"ov", [], [], []⟩, true, ""⟩
      SystemState.init SystemState.init).2.2.2.1 rfl,
   (claim_C9_poison_message_ack ⟨none, ⟨none, none, none⟩, true, "", true, ""⟩
      ⟨some ⟨some "A1", some "S1", [], ⟨none, none, none⟩⟩, "report",
        ⟨"ov", [], [], []⟩, false, "nats down"⟩
      SystemState.init SystemState.init).2.2.2.2.1 rfl rfl,
   (claim_C9_poison_message_ack ⟨none, ⟨none, none, none⟩, true, "", true, ""⟩
      ⟨some ⟨some "A1", some "S1", [], ⟨none, none, none⟩⟩, "report",
        ⟨"ov", [], [], []⟩, true, ""⟩
      SystemState.init SystemState.init).2.2.2.2.2 rfl rfl⟩
